import Mathlib

/-!
Shallow embedding of the geometry constraint engine
(`src/hooks/useGeometryEngine.tsx`, `src/constants.ts`, `src/types.ts`).

Coordinates are modelled as exact reals; JS `undefined`-able fields are
modelled as `Option`, with JS truthiness made explicit where the source
relies on it (empty string and `undefined` are falsy, `0` is falsy for
`targetValue || 0`).  Code that can throw at runtime (the MIDPOINT solver
branch reads `M.data!.position!` through TypeScript non-null assertions)
is modelled in the `Except Unit` monad.
-/

/-- 3D vectors, as in `types.ts` `Point3 = [number, number, number]`. -/
abbrev Point3 : Type := EuclideanSpace ℝ (Fin 3)

/-- Build a `Point3` from three coordinates (the `[x, y, z]` literal). -/
def p3 (x y z : ℝ) : Point3 := ![x, y, z]

/-- `ObjectType` enum from `types.ts`. -/
inductive ObjectType where
  | POINT | LINE | SEGMENT | PLANE | POLYGON | PRISM | CIRCLE
deriving DecidableEq, Repr

/-- `ConstraintType` enum from `types.ts`. -/
inductive ConstraintType where
  | DISTANCE | ANGLE | PARALLEL | PERPENDICULAR | POINT_ON_PLANE
  | POINT_ON_LINE | MIDPOINT | EQUAL_LENGTH | FIXED_COORD
deriving DecidableEq, Repr

/-- The `data` bag of a `GeometryObject` (`types.ts`).  The fields `p1`,
`p2` and `points` are the alternate payload shapes consumed by the
`addObject` normalization. -/
structure ObjData where
  position : Option Point3 := none
  normal : Option Point3 := none
  radius : Option ℝ := none
  height : Option ℝ := none
  p1 : Option String := none
  p2 : Option String := none
  points : Option (List String) := none

/-- `GeometryObject` from `types.ts`.  Optional fields are `Option`;
a JS payload may also omit `visible`/`fixed`, hence `Option Bool`. -/
structure Obj where
  id : String
  type : ObjectType
  name : String := ""
  color : Option String := none
  visible : Option Bool := none
  selected : Option Bool := none
  fixed : Option Bool := none
  points : Option (List String) := none
  data : Option ObjData := none

/-- `Constraint` from `types.ts`; `enabled` is `Option Bool` because action
payloads may omit it (the store does not default it). -/
structure Constraint where
  id : String
  type : ConstraintType
  objectIds : List String
  targetValue : Option ℝ := none
  tolerance : Option ℝ := none
  enabled : Option Bool := none
  residual : Option ℝ := none

/-- Solver statistics, `solverStats` in `useGeometryEngine.tsx`. -/
structure SolverStats where
  iterations : Nat
  totalError : ℝ
  verified : Nat
  total : Nat

/-- `const MAX_ITER = 50`. -/
def MAX_ITER : Nat := 50

/-- `const LEARNING_RATE = 0.5`. -/
def LEARNING_RATE : ℝ := 0.5

/-- The object's `data?.position` optional chain. -/
def posOf (o : Obj) : Option Point3 := o.data.bind (·.position)

/-- `currentObjects.find(o => o.id === i)`; a missing operand id
(`c.objectIds[k]` past the end is `undefined`) never matches. -/
def findObj (objs : List Obj) : Option String → Option Obj
  | none => none
  | some s => objs.find? (fun o => o.id == s)

/-- Write `o.data.position`; the solver only ever does this on objects whose
`data` bag exists. -/
def setPos (o : Obj) (p : Point3) : Obj :=
  { o with data := o.data.map (fun d => { d with position := some p }) }

/-- In-place mutation of the object found by `find`: rewrite the first
list entry carrying the given id. -/
def updateFirst (objs : List Obj) (i : String) (f : Obj → Obj) : List Obj :=
  match objs with
  | [] => []
  | o :: rest => if o.id == i then f o :: rest else o :: updateFirst rest i f

/-- `M.data!.position!`: TypeScript non-null assertions; at runtime a
missing `data` bag or missing `position` throws a `TypeError`, modelled
as `Except.error ()`. -/
def getPosBang (o : Obj) : Except Unit Point3 :=
  match posOf o with
  | none => .error ()
  | some p => .ok p

/-- The DISTANCE branch of `solve` (lines 62–87): returns the updated
objects and the error contribution of this constraint.  This branch
guards `p1.data?.position` and cannot throw. -/
noncomputable def applyDistance (objs : List Obj) (c : Constraint) : List Obj × ℝ :=
  match findObj objs (c.objectIds.get? 0), findObj objs (c.objectIds.get? 1) with
  | some q1, some q2 =>
    match posOf q1, posOf q2 with
    | some v1, some v2 =>
      let d := dist v1 v2
      let target := c.targetValue.getD 0
      let diff := d - target
      if 0.0001 < d then
        let correction := diff / d * 0.5 * LEARNING_RATE
        let offset := correction • (v2 - v1)
        let objs1 := if q1.fixed = some true then objs
          else updateFirst objs q1.id (fun o => setPos o (v1 + offset))
        let objs2 := if q2.fixed = some true then objs1
          else updateFirst objs1 q2.id (fun o => setPos o (v2 - offset))
        (objs2, |diff|)
      else (objs, |diff|)
    | _, _ => (objs, 0)
  | _, _ => (objs, 0)

/-- The MIDPOINT branch of `solve` (lines 89–109).  The three position
reads go through non-null assertions and may throw. -/
noncomputable def applyMidpoint (objs : List Obj) (c : Constraint) : Except Unit (List Obj × ℝ) :=
  match findObj objs (c.objectIds.get? 0), findObj objs (c.objectIds.get? 1),
        findObj objs (c.objectIds.get? 2) with
  | some m, some a, some b => do
    let vM ← getPosBang m
    let vA ← getPosBang a
    let vB ← getPosBang b
    let targetM := (0.5 : ℝ) • (vA + vB)
    let diff := dist vM targetM
    let objs' := if m.fixed = some true then objs
      else updateFirst objs m.id (fun o => setPos o (vM + LEARNING_RATE • (targetM - vM)))
    .ok (objs', diff)
  | _, _, _ => .ok (objs, 0)

/-- One constraint evaluation: dispatch on the constraint type; any type
other than DISTANCE and MIDPOINT falls through the conditional chain and
contributes nothing. -/
noncomputable def applyConstraint (objs : List Obj) (c : Constraint) : Except Unit (List Obj × ℝ) :=
  if c.type = ConstraintType.DISTANCE then .ok (applyDistance objs c)
  else if c.type = ConstraintType.MIDPOINT then applyMidpoint objs c
  else .ok (objs, 0)

/-- One solver iteration: `activeConstraints.forEach(...)`, accumulating
`iterError` over the constraints in stored order (Gauss–Seidel: each
constraint sees the updates of the previous ones). -/
noncomputable def solveIter (objs : List Obj) : List Constraint → Except Unit (List Obj × ℝ)
  | [] => .ok (objs, 0)
  | c :: rest => do
    let r1 ← applyConstraint objs c
    let r2 ← solveIter r1.1 rest
    .ok (r2.1, r1.2 + r2.2)

/-- The iteration loop of `solve` (lines 57–114) with fuel `n`:
`if (iterError < 0.001) break;` happens **before** `totalResidual =
iterError`, so a converging iteration does not update the residual. -/
noncomputable def solveGo (active : List Constraint) : Nat → List Obj → ℝ → Except Unit (List Obj × ℝ)
  | 0, objs, res => .ok (objs, res)
  | n + 1, objs, res => do
    let r ← solveIter objs active
    if r.2 < 0.001 then .ok (r.1, res)
    else solveGo active n r.1 r.2

/-- `constraintsRef.current.filter(c => c.enabled)`: JS truthiness — only
`enabled === true` passes. -/
def activeOf (cs : List Constraint) : List Constraint :=
  cs.filter (fun c => c.enabled == some true)

/-- `solve` (lines 48–126): run the loop on a value copy of the objects
and report the stats that the source commits via `setSolverStats`
(`iterations: MAX_ITER`, `verified = activeConstraints.length`). -/
noncomputable def solve (objs : List Obj) (cs : List Constraint) :
    Except Unit (List Obj × SolverStats) := do
  let active := activeOf cs
  let r ← solveGo active MAX_ITER objs 0
  .ok (r.1, { iterations := MAX_ITER, totalError := r.2,
              verified := active.length, total := active.length })

/-- `addConstraint` (lines 177–179): a plain append, no normalization. -/
def addConstraint (c : Constraint) (prev : List Constraint) : List Constraint :=
  prev ++ [c]

/-- JS truthiness of an optional string: `undefined` and `""` are falsy. -/
def truthyStr : Option String → Bool
  | none => false
  | some s => s ≠ ""

/-- `if (!obj.id) obj.id = ...`: assign the fresh id when the id is falsy
(the source draws a random id; here the fresh id is a parameter). -/
def ensureId (freshId : String) (o : Obj) : Obj :=
  if o.id = "" then { o with id := freshId } else o

/-- `if (obj.visible === undefined) obj.visible = true`. -/
def ensureVisible (o : Obj) : Obj :=
  if o.visible = none then { o with visible := some true } else o

/-- Segment `points` back-fill (lines 140–148): `data.p1`/`data.p2` win
when both are truthy, else a `data.points` array. -/
def normalizeSegment (o : Obj) : Obj :=
  if o.type = ObjectType.SEGMENT then
    if (o.points = none ∨ o.points = some []) then
      match o.data with
      | none => o
      | some d =>
        if truthyStr d.p1 ∧ truthyStr d.p2 then
          { o with points := some [d.p1.getD (""), d.p2.getD ("")] }
        else match d.points with
          | some l => { o with points := some l }
          | none => o
    else o
  else o

/-- Polygon `points` back-fill (lines 149–155). -/
def normalizePolygon (o : Obj) : Obj :=
  if o.type = ObjectType.POLYGON then
    if (o.points = none ∨ o.points = some []) then
      match o.data with
      | none => o
      | some d =>
        match d.points with
        | some l => { o with points := some l }
        | none => o
    else o
  else o

/-- The normalization performed by `addObject` (lines 130–155) on the
incoming object: ensure id, default `visible` to true, and back-fill the
`points` list of Segment/Polygon payloads. -/
def normalizeObj (freshId : String) (rawObj : Obj) : Obj :=
  normalizePolygon (normalizeSegment (ensureVisible (ensureId freshId rawObj)))

/-- `addObject` (lines 128–166): normalize, then upsert by id (replace in
place if the id exists, else append). -/
def addObject (freshId : String) (rawObj : Obj) (prev : List Obj) : List Obj :=
  let obj := normalizeObj freshId rawObj
  match prev.findIdx? (fun p => p.id == obj.id) with
  | some k => prev.set k obj
  | none => prev ++ [obj]

/-- `INITIAL_CAMERA_POS` from `constants.ts`. -/
def INITIAL_CAMERA_POS : Point3 := p3 5 5 5

/-- `INITIAL_CAMERA_TARGET` from `constants.ts`. -/
def INITIAL_CAMERA_TARGET : Point3 := p3 0 0 0

/-- A camera pose: `{ position, target }`. -/
structure Pose where
  position : Point3
  target : Point3

/-- Componentwise minimum (`THREE.Box3` min update). -/
def vmin (a b : Point3) : Point3 := fun i => min (a i) (b i)

/-- Componentwise maximum (`THREE.Box3` max update). -/
def vmax (a b : Point3) : Point3 := fun i => max (a i) (b i)

/-- One `THREE.Box3.expandByPoint` call: `none` is the empty box; the first
point seeds min and max. -/
def boxStep (acc : Option (Point3 × Point3)) (p : Point3) : Option (Point3 × Point3) :=
  match acc with
  | none => some (p, p)
  | some (mn, mx) => some (vmin mn p, vmax mx p)

/-- `new THREE.Box3()` grown by `expandByPoint` over a list of points. -/
def boxFold (l : List Point3) : Option (Point3 × Point3) :=
  l.foldl boxStep none

/-- `THREE.Vector3.normalize()`: divide by the length (only applied to a
nonzero vector in this code). -/
noncomputable def normalize3 (v : Point3) : Point3 := ‖v‖⁻¹ • v

/-- The positions the framer boxes: visible objects carrying a position. -/
def framedPositions (objs : List Obj) : List Point3 :=
  (objs.filter (fun o => o.visible == some true)).filterMap posOf

/-- `computeOptimalView` (lines 191–225). -/
noncomputable def computeOptimalView (objs : List Obj) : Pose :=
  if objs.length = 0 then
    { position := INITIAL_CAMERA_POS, target := INITIAL_CAMERA_TARGET }
  else
    let visibleObjects := objs.filter (fun o => o.visible == some true)
    if visibleObjects.length = 0 then
      { position := INITIAL_CAMERA_POS, target := INITIAL_CAMERA_TARGET }
    else
      match boxFold (visibleObjects.filterMap posOf) with
      | none => { position := INITIAL_CAMERA_POS, target := INITIAL_CAMERA_TARGET }
      | some (mn, mx) =>
        let center := (0.5 : ℝ) • (mn + mx)
        let size := mx - mn
        let maxDim := max (size 0) (max (size 1) (size 2))
        let distance := maxDim * 4.0 + 5
        { position := center + distance • normalize3 (p3 1 0.8 1), target := center }

def mkPt (ty : ObjectType) (i : String) (x : ℝ) : Obj :=
  { id := i, type := ty, data := some { position := some (p3 x 0 0) } }

def mk2 (ty : ObjectType) (a b : ℝ) : List Obj := [mkPt ty ("A") a, mkPt ty ("B") b]

def dc (t : Option ℝ) : Constraint :=
  { id := "c1", type := .DISTANCE, objectIds := ["A", "B"], targetValue := t,
    enabled := some true }

noncomputable def runIters (active : List Constraint) : Nat → (List Obj × ℝ) → Except Unit (List Obj × ℝ)
  | 0, p => .ok p
  | n + 1, p => do
    let r ← solveIter p.1 active
    runIters active n r

def c1M : Obj := { id := "M", type := .POINT, data := some { position := some (p3 0 0 0) } }

def c1A : Obj := { id := "A", type := .POINT, data := some {} }

def c1B : Obj := { id := "B", type := .POINT, data := some { position := some (p3 1 0 0) } }

def c1c : Constraint := { id := "m1", type := .MIDPOINT, objectIds := ["M", "A", "B"], enabled := some true }

def c5c : Constraint := { id := "d1", type := .DISTANCE, objectIds := ["A", "B"] }

def erasePos (o : Obj) : Obj :=
  { o with data := o.data.map (fun d => { d with position := none }) }

def stepRel (a b : List Obj) (r : ℝ) : Prop :=
  a.map erasePos = b.map erasePos ∧
  ∀ (j : Nat) (h1 : j < a.length) (h2 : j < b.length),
    ((a.get ⟨j, h1⟩).fixed = some true → posOf (b.get ⟨j, h2⟩) = posOf (a.get ⟨j, h1⟩)) ∧
    (posOf (a.get ⟨j, h1⟩) = none ↔ posOf (b.get ⟨j, h2⟩) = none) ∧
    ∀ p q, posOf (a.get ⟨j, h1⟩) = some p → posOf (b.get ⟨j, h2⟩) = some q → dist p q ≤ r

def keepsShape (a b : List Obj) : Prop :=
  a.map erasePos = b.map erasePos ∧
  ∀ (j : Nat) (h1 : j < a.length) (h2 : j < b.length),
    (a.get ⟨j, h1⟩).fixed = some true → posOf (b.get ⟨j, h2⟩) = posOf (a.get ⟨j, h1⟩)

def o9 : Obj :=
  { id := "S1", type := .SEGMENT, data := some { p1 := some ("A"), p2 := some ("B") } }

def o8 : Obj :=
  { id := "P", type := .POINT, visible := some true,
    data := some { position := some (p3 1 2 3) } }

def gPt (ty : ObjectType) (i : String) (f : Option Bool) (w : Point3) : Obj :=
  { id := i, type := ty, fixed := f, data := some { position := some w } }

def gmk2 (ty : ObjectType) (i1 i2 : String) (f1 f2 : Option Bool) (w1 w2 : Point3) : List Obj :=
  [gPt ty i1 f1 w1, gPt ty i2 f2 w2]

def gdc (i1 i2 : String) (t : Option ℝ) : Constraint :=
  { id := "c1", type := .DISTANCE, objectIds := [i1, i2], targetValue := t,
    enabled := some true }

theorem dist_p3 (a b c d e f : ℝ) :
    dist (p3 a b c) (p3 d e f) = Real.sqrt ((a-d)^2 + (b-e)^2 + (c-f)^2) := by
  rw [EuclideanSpace.dist_eq]
  simp [p3, Fin.sum_univ_three, Real.dist_eq, sq_abs]

theorem p3_sub (a b c d e f : ℝ) : p3 a b c - p3 d e f = p3 (a-d) (b-e) (c-f) := by
  funext i; fin_cases i <;> simp [p3]

theorem p3_add (a b c d e f : ℝ) : p3 a b c + p3 d e f = p3 (a+d) (b+e) (c+f) := by
  funext i; fin_cases i <;> simp [p3]

theorem p3_smul (r a b c : ℝ) : r • p3 a b c = p3 (r*a) (r*b) (r*c) := by
  funext i; fin_cases i <;> simp [p3]

theorem dist_x (a b : ℝ) (h : a ≤ b) : dist (p3 a 0 0) (p3 b 0 0) = b - a := by
  rw [dist_p3]
  rw [show (a-b)^2 + ((0:ℝ)-0)^2 + ((0:ℝ)-0)^2 = (b-a)^2 by ring]
  rw [Real.sqrt_sq_eq_abs]
  rw [abs_of_nonneg (by linarith)]

theorem p3_congr {x y z x' y' z' : ℝ} (hx : x = x') (hy : y = y') (hz : z = z') :
    p3 x y z = p3 x' y' z' := by rw [hx, hy, hz]

theorem fam_step (ty : ObjectType) (a b : ℝ) (tv : Option ℝ) (h : 0.0001 < b - a) :
    applyDistance (mk2 ty a b) (dc tv) =
      (mk2 ty (a + (b - a - tv.getD 0)/4) (b - (b - a - tv.getD 0)/4), |b - a - tv.getD 0|) := by
  have hab : a ≤ b := by linarith
  have hd : dist (p3 a 0 0) (p3 b 0 0) = b - a := dist_x a b hab
  have hne : b - a ≠ 0 := by positivity
  have e1 : ("A" == "B") = false := by decide
  have e2 : ("A" == "A") = true := by decide
  have e3 : ("B" == "B") = true := by decide
  simp only [applyDistance, mk2, mkPt, dc, findObj, List.get?, List.find?, posOf, e1, e2, e3,
    Option.some_bind, updateFirst, setPos, Option.map_some, hd]
  rw [if_pos (show (0.0001 : ℝ) < b - a from h)]
  simp only [show ((none : Option Bool) = some true) = False by simp, if_false, if_true,
    reduceCtorEq]
  simp only [p3_sub, p3_smul, p3_add, Prod.mk.injEq, List.cons.injEq, Obj.mk.injEq,
    ObjData.mk.injEq, Option.some.injEq, and_true, true_and, LEARNING_RATE]
  simp only [Option.map_some', Option.some.injEq, ObjData.mk.injEq, and_true, true_and]
  constructor
  · exact p3_congr (by field_simp; ring) (by ring) (by ring)
  · exact p3_congr (by field_simp; ring) (by ring) (by ring)

theorem exc_ok_bind {α β : Type} (a : α) (f : α → Except Unit β) :
    (Except.ok a >>= f) = f a := rfl

theorem exc_error_bind {α β : Type} (e : Unit) (f : α → Except Unit β) :
    ((Except.error e : Except Unit α) >>= f) = Except.error e := rfl

theorem runIters_succ_right (active : List Constraint) :
    ∀ (n : Nat) (p : List Obj × ℝ), runIters active (n + 1) p =
      (runIters active n p) >>= (fun q => solveIter q.1 active) := by
  intro n
  induction n with
  | zero =>
    intro p
    cases hsi : solveIter p.1 active <;> simp [runIters, hsi, exc_ok_bind, exc_error_bind]
  | succ m ih =>
    intro p
    cases hsi : solveIter p.1 active with
    | error err => simp [runIters, hsi, exc_ok_bind, exc_error_bind]
    | ok r =>
      have l1 : runIters active (m + 2) p = runIters active (m + 1) r := by
        simp [runIters, hsi, exc_ok_bind, exc_error_bind]
      have l2 : runIters active (m + 1) p = runIters active m r := by
        simp [runIters, hsi, exc_ok_bind, exc_error_bind]
      rw [show m + 1 + 1 = m + 2 from rfl, l1, ih r, l2]

theorem solveGo_break (active : List Constraint) :
    ∀ (k n : Nat) (objs : List Obj) (res : ℝ) (s' : List Obj) (e' : ℝ)
      (s : List Obj) (e : ℝ), k < n →
    runIters active k (objs, res) = .ok (s', e') →
    runIters active (k + 1) (objs, res) = .ok (s, e) →
    e < 0.001 →
    (∀ (j : Nat) (sj : List Obj) (ej : ℝ), j < k →
      runIters active (j + 1) (objs, res) = .ok (sj, ej) → 0.001 ≤ ej) →
    solveGo active n objs res = .ok (s, e') := by
  intro k
  induction k with
  | zero =>
    intro n objs res s' e' s e hn h0 h1 he _hmin
    simp only [runIters] at h0
    obtain ⟨hs', he'⟩ : s' = objs ∧ e' = res := by
      cases h0; exact ⟨rfl, rfl⟩
    cases hsi : solveIter objs active with
    | error err => simp [runIters, hsi, exc_error_bind] at h1
    | ok r =>
      simp only [runIters, hsi, exc_ok_bind, Except.ok.injEq] at h1
      subst h1
      obtain ⟨m, rfl⟩ : ∃ m, n = m + 1 := ⟨n - 1, by omega⟩
      simp [solveGo, hsi, exc_ok_bind, exc_error_bind, if_pos he, hs', he']
  | succ k ih =>
    intro n objs res s' e' s e hn h0 h1 he hmin
    cases hsi : solveIter objs active with
    | error err =>
      rw [show k + 1 + 1 = k + 2 from rfl] at h1
      simp [runIters, hsi, exc_ok_bind, exc_error_bind] at h1
    | ok r =>
      have hrun1 : runIters active 1 (objs, res) = .ok r := by
        simp [runIters, hsi, exc_ok_bind, exc_error_bind]
      have he0 : 0.001 ≤ r.2 := hmin 0 r.1 r.2 (Nat.succ_pos k) (by simpa using hrun1)
      have hshift : ∀ (m : Nat), runIters active (m + 1) (objs, res) = runIters active m r := by
        intro m; simp [runIters, hsi, exc_ok_bind, exc_error_bind]
      obtain ⟨m, rfl⟩ : ∃ m, n = m + 1 := ⟨n - 1, by omega⟩
      have hkm : k < m := Nat.lt_of_succ_lt_succ hn
      have hgo : solveGo active (m + 1) objs res = solveGo active m r.1 r.2 := by
        simp [solveGo, hsi, exc_ok_bind, exc_error_bind, if_neg (not_lt.mpr he0)]
      rw [hgo]
      have h0' : runIters active k (r.1, r.2) = .ok (s', e') := by
        rw [← hshift k] ; exact h0
      have h1' : runIters active (k + 1) (r.1, r.2) = .ok (s, e) := by
        rw [← hshift (k + 1)]; exact h1
      exact ih m r.1 r.2 s' e' s e hkm h0' h1' he
        (fun j sj ej hj hrj => hmin (j + 1) sj ej (Nat.succ_lt_succ hj)
          (by rw [hshift (j + 1)]; exact hrj))

theorem solveGo_cap (active : List Constraint) :
    ∀ (n : Nat) (objs : List Obj) (res : ℝ) (s : List Obj) (e : ℝ),
    runIters active n (objs, res) = .ok (s, e) →
    (∀ (j : Nat) (sj : List Obj) (ej : ℝ), j < n →
      runIters active (j + 1) (objs, res) = .ok (sj, ej) → 0.001 ≤ ej) →
    solveGo active n objs res = .ok (s, e) := by
  intro n
  induction n with
  | zero =>
    intro objs res s e h0 _hmin
    simp only [runIters] at h0
    obtain ⟨hs, he⟩ : s = objs ∧ e = res := by cases h0; exact ⟨rfl, rfl⟩
    subst hs; subst he
    simp [solveGo]
  | succ m ih =>
    intro objs res s e h0 hmin
    cases hsi : solveIter objs active with
    | error err => simp [runIters, hsi, exc_ok_bind, exc_error_bind] at h0
    | ok r =>
      have hrun1 : runIters active 1 (objs, res) = .ok r := by
        simp [runIters, hsi, exc_ok_bind, exc_error_bind]
      have he0 : 0.001 ≤ r.2 := hmin 0 r.1 r.2 (Nat.succ_pos m) (by simpa using hrun1)
      have hshift : ∀ (j : Nat), runIters active (j + 1) (objs, res) = runIters active j r := by
        intro j; simp [runIters, hsi, exc_ok_bind, exc_error_bind]
      have hgo : solveGo active (m + 1) objs res = solveGo active m r.1 r.2 := by
        simp [solveGo, hsi, exc_ok_bind, exc_error_bind, if_neg (not_lt.mpr he0)]
      rw [hgo]
      exact ih r.1 r.2 s e (by rw [← hshift m]; exact h0)
        (fun j sj ej hj hrj => hmin (j + 1) sj ej (Nat.succ_lt_succ hj)
          (by rw [hshift (j + 1)]; exact hrj))

theorem mk2_congr (ty : ObjectType) {a b a' b' : ℝ} (ha : a = a') (hb : b = b') :
    mk2 ty a b = mk2 ty a' b' := by rw [ha, hb]

theorem fam_step_some (ty : ObjectType) (a b t : ℝ) (h : 0.0001 < b - a) :
    applyDistance (mk2 ty a b) (dc (some t)) =
      (mk2 ty (a + (b - a - t)/4) (b - (b - a - t)/4), |b - a - t|) := by
  simpa using fam_step ty a b (some t) h

theorem fam_iter (ty : ObjectType) (a b t : ℝ) (h : 0.0001 < b - a) :
    solveIter (mk2 ty a b) [dc (some t)] =
      .ok (mk2 ty (a + (b - a - t)/4) (b - (b - a - t)/4), |b - a - t|) := by
  have hty : (dc (some t)).type = ConstraintType.DISTANCE := rfl
  simp [solveIter, applyConstraint, hty, exc_ok_bind, fam_step_some ty a b t h]

theorem fam_run (ty : ObjectType) (a0 b0 t : ℝ) (ht : 0.0001 < t) (h0 : 0.0001 < b0 - a0) :
    ∀ (k : Nat) (r : ℝ), runIters [dc (some t)] (k + 1) (mk2 ty a0 b0, r) =
      .ok (mk2 ty (a0 + (b0 - a0 - t)/2 * (1 - (1/2)^(k+1)))
               (b0 - (b0 - a0 - t)/2 * (1 - (1/2)^(k+1))),
           |b0 - a0 - t| * (1/2)^k) := by
  intro k
  induction k with
  | zero =>
    intro r
    have hit := fam_iter ty a0 b0 t h0
    simp [runIters, hit, exc_ok_bind]
    exact mk2_congr ty (by ring) (by ring)
  | succ k ih =>
    intro r
    rw [runIters_succ_right, ih r]
    have hgap : (b0 - (b0 - a0 - t)/2 * (1 - (1/2)^(k+1))) -
        (a0 + (b0 - a0 - t)/2 * (1 - (1/2)^(k+1))) = t + (b0 - a0 - t) * (1/2)^(k+1) := by
      ring
    have hq : (0:ℝ) < (1/2)^(k+1) := by positivity
    have hq1 : ((1:ℝ)/2)^(k+1) ≤ 1 := by
      apply pow_le_one₀ <;> norm_num
    have hgt : 0.0001 < (b0 - (b0 - a0 - t)/2 * (1 - (1/2)^(k+1))) -
        (a0 + (b0 - a0 - t)/2 * (1 - (1/2)^(k+1))) := by
      rw [hgap]
      rcases le_total t (b0 - a0) with hc | hc
      · nlinarith
      · nlinarith
    rw [exc_ok_bind]
    have hit := fam_iter ty (a0 + (b0 - a0 - t)/2 * (1 - (1/2)^(k+1)))
      (b0 - (b0 - a0 - t)/2 * (1 - (1/2)^(k+1))) t hgt
    rw [hit]
    have habs : |(b0 - (b0 - a0 - t)/2 * (1 - (1/2)^(k+1))) -
        (a0 + (b0 - a0 - t)/2 * (1 - (1/2)^(k+1))) - t| = |b0 - a0 - t| * (1/2)^(k+1) := by
      rw [show (b0 - (b0 - a0 - t)/2 * (1 - (1/2)^(k+1))) -
        (a0 + (b0 - a0 - t)/2 * (1 - (1/2)^(k+1))) - t = (b0 - a0 - t) * (1/2)^(k+1) by ring]
      rw [abs_mul, abs_of_pos hq]
    rw [habs]
    simp only [Except.ok.injEq, Prod.mk.injEq]
    exact ⟨mk2_congr ty (by ring) (by ring), trivial⟩

theorem gdc_active (i1 i2 : String) (t : Option ℝ) :
    activeOf [gdc i1 i2 t] = [gdc i1 i2 t] := by
  simp [activeOf, gdc, List.filter]

theorem gfam_step (ty : ObjectType) (i1 i2 : String) (f1 f2 : Option Bool)
    (w1 w2 : Point3) (tv : Option ℝ) (hne : i1 ≠ i2)
    (hf1 : f1 ≠ some true) (hf2 : f2 ≠ some true)
    (h : 0.0001 < dist w1 w2) :
    applyDistance (gmk2 ty i1 i2 f1 f2 w1 w2) (gdc i1 i2 tv) =
      (gmk2 ty i1 i2 f1 f2
        (w1 + ((dist w1 w2 - tv.getD 0) / dist w1 w2 * 0.5 * LEARNING_RATE) • (w2 - w1))
        (w2 - ((dist w1 w2 - tv.getD 0) / dist w1 w2 * 0.5 * LEARNING_RATE) • (w2 - w1)),
       |dist w1 w2 - tv.getD 0|) := by
  have e11 : (i1 == i1) = true := beq_self_eq_true i1
  have e22 : (i2 == i2) = true := beq_self_eq_true i2
  have e12 : (i1 == i2) = false := by
    rw [beq_eq_false_iff_ne]
    exact hne
  simp only [applyDistance, gmk2, gPt, gdc, findObj, List.get?, List.find?, posOf,
    e11, e22, e12, Option.some_bind, updateFirst, setPos, Option.map_some]
  rw [if_pos h]
  simp only [hf1, hf2, if_false, if_true, reduceCtorEq, e11, e22, e12,
    Option.map_some', updateFirst]

theorem gfam_sub (v1 v2 : Point3) (s : ℝ) :
    (v2 - s • (v2 - v1)) - (v1 + s • (v2 - v1)) = (1 - 2*s) • (v2 - v1) := by
  rw [sub_smul, one_smul, show (2:ℝ)*s = s + s by ring, add_smul]
  abel

theorem gfam_dist (v1 v2 : Point3) (s : ℝ) (hs : s ≤ 1/2) (hd : dist v1 v2 = 10) :
    dist (v1 + s • (v2 - v1)) (v2 - s • (v2 - v1)) = (1 - 2*s) * 10 := by
  rw [dist_eq_norm, ← norm_neg, neg_sub, gfam_sub, norm_smul, Real.norm_eq_abs,
      abs_of_nonneg (by linarith), ← dist_eq_norm' v1 v2, hd]

theorem gfam_move (v1 v2 : Point3) (s : ℝ) :
    dist (v1 + s • (v2 - v1)) v1 = dist (v2 - s • (v2 - v1)) v2 := by
  rw [dist_comm (v1 + s • (v2 - v1)) v1, dist_self_add_right,
      dist_comm (v2 - s • (v2 - v1)) v2, sub_eq_add_neg v2 (s • (v2 - v1)),
      dist_self_add_right, norm_neg]

theorem solveIter_single_distance (objs : List Obj) (c : Constraint)
    (hty : c.type = ConstraintType.DISTANCE) :
    solveIter objs [c] = .ok (applyDistance objs c) := by
  simp [solveIter, applyConstraint, hty, exc_ok_bind]

theorem gmk2_congr (ty : ObjectType) (i1 i2 : String) (f1 f2 : Option Bool)
    {x y x' y' : Point3} (hx : x = x') (hy : y = y') :
    gmk2 ty i1 i2 f1 f2 x y = gmk2 ty i1 i2 f1 f2 x' y' := by rw [hx, hy]

theorem gfam_iter (ty : ObjectType) (i1 i2 : String) (f1 f2 : Option Bool) (v1 v2 : Point3)
    (s : ℝ) (hne : i1 ≠ i2) (hf1 : f1 ≠ some true) (hf2 : f2 ≠ some true)
    (hd : dist v1 v2 = 10) (h1 : s ≤ 1/4) :
    solveIter (gmk2 ty i1 i2 f1 f2 (v1 + s • (v2 - v1)) (v2 - s • (v2 - v1)))
        [gdc i1 i2 (some 5)] =
      .ok (gmk2 ty i1 i2 f1 f2 (v1 + (s/2 + 1/8) • (v2 - v1)) (v2 - (s/2 + 1/8) • (v2 - v1)),
           5 - 20*s) := by
  have hgap : dist (v1 + s • (v2 - v1)) (v2 - s • (v2 - v1)) = (1 - 2*s) * 10 :=
    gfam_dist v1 v2 s (by linarith) hd
  have hgt : (0.0001 : ℝ) < dist (v1 + s • (v2 - v1)) (v2 - s • (v2 - v1)) := by
    rw [hgap]; nlinarith
  have hstep := gfam_step ty i1 i2 f1 f2 _ _ (some 5) hne hf1 hf2 hgt
  have hty : (gdc i1 i2 (some 5)).type = ConstraintType.DISTANCE := rfl
  have hsub := gfam_sub v1 v2 s
  have hg0 : (1 - 2*s) * 10 ≠ 0 := ne_of_gt (by nlinarith)
  have hoff1 : (v1 + s • (v2 - v1)) +
      ((dist (v1 + s • (v2 - v1)) (v2 - s • (v2 - v1)) - (some (5:ℝ)).getD 0) /
        dist (v1 + s • (v2 - v1)) (v2 - s • (v2 - v1)) * 0.5 * LEARNING_RATE) •
        ((v2 - s • (v2 - v1)) - (v1 + s • (v2 - v1))) =
      v1 + (s/2 + 1/8) • (v2 - v1) := by
    rw [hsub, hgap, smul_smul, add_assoc, ← add_smul]
    congr 2
    rw [LEARNING_RATE, Option.getD_some]
    field_simp
    ring
  have hoff2 : (v2 - s • (v2 - v1)) -
      ((dist (v1 + s • (v2 - v1)) (v2 - s • (v2 - v1)) - (some (5:ℝ)).getD 0) /
        dist (v1 + s • (v2 - v1)) (v2 - s • (v2 - v1)) * 0.5 * LEARNING_RATE) •
        ((v2 - s • (v2 - v1)) - (v1 + s • (v2 - v1))) =
      v2 - (s/2 + 1/8) • (v2 - v1) := by
    rw [hsub, hgap, smul_smul, sub_sub, ← add_smul]
    congr 2
    rw [LEARNING_RATE, Option.getD_some]
    field_simp
    ring
  have herr : |dist (v1 + s • (v2 - v1)) (v2 - s • (v2 - v1)) - (some (5:ℝ)).getD 0| =
      5 - 20*s := by
    rw [hgap, Option.getD_some, abs_of_nonneg (by linarith)]
    ring
  rw [solveIter_single_distance _ _ rfl, hstep]
  simp only [Except.ok.injEq, Prod.mk.injEq]
  exact ⟨gmk2_congr ty i1 i2 f1 f2 hoff1 hoff2, herr⟩

theorem gfam_run (ty : ObjectType) (i1 i2 : String) (f1 f2 : Option Bool) (v1 v2 : Point3)
    (hne : i1 ≠ i2) (hf1 : f1 ≠ some true) (hf2 : f2 ≠ some true) (hd : dist v1 v2 = 10) :
    ∀ (k : Nat) (r : ℝ),
    runIters [gdc i1 i2 (some 5)] (k + 1) (gmk2 ty i1 i2 f1 f2 v1 v2, r) =
      .ok (gmk2 ty i1 i2 f1 f2 (v1 + ((1:ℝ)/4 - 1/4 * (1/2)^(k+1)) • (v2 - v1))
                             (v2 - ((1:ℝ)/4 - 1/4 * (1/2)^(k+1)) • (v2 - v1)),
           5 * (1/2)^k) := by
  intro k
  induction k with
  | zero =>
    intro r
    have hit := gfam_iter ty i1 i2 f1 f2 v1 v2 0 hne hf1 hf2 hd (by norm_num)
    rw [show v1 + (0:ℝ) • (v2 - v1) = v1 by simp, show v2 - (0:ℝ) • (v2 - v1) = v2 by simp]
      at hit
    simp only [runIters, hit, exc_ok_bind]
    simp only [Except.ok.injEq, Prod.mk.injEq]
    refine ⟨gmk2_congr ty i1 i2 f1 f2 ?_ ?_, by norm_num⟩
    · rw [show (0:ℝ)/2 + 1/8 = 1/4 - 1/4 * (1/2)^(0+1) by norm_num]
    · rw [show (0:ℝ)/2 + 1/8 = 1/4 - 1/4 * (1/2)^(0+1) by norm_num]
  | succ k ih =>
    intro r
    rw [runIters_succ_right, ih r, exc_ok_bind]
    have hsle : (1:ℝ)/4 - 1/4 * (1/2)^(k+1) ≤ 1/4 := by
      have hq : (0:ℝ) ≤ 1/4 * (1/2)^(k+1) := by positivity
      linarith
    have hit := gfam_iter ty i1 i2 f1 f2 v1 v2 ((1:ℝ)/4 - 1/4 * (1/2)^(k+1))
      hne hf1 hf2 hd hsle
    rw [hit]
    simp only [Except.ok.injEq, Prod.mk.injEq]
    refine ⟨gmk2_congr ty i1 i2 f1 f2 ?_ ?_, by ring⟩
    · rw [show ((1:ℝ)/4 - 1/4 * (1/2)^(k+1))/2 + 1/8 = 1/4 - 1/4 * (1/2)^(k+1+1) by ring]
    · rw [show ((1:ℝ)/4 - 1/4 * (1/2)^(k+1))/2 + 1/8 = 1/4 - 1/4 * (1/2)^(k+1+1) by ring]

theorem gc6_go (i1 i2 : String) (f1 f2 : Option Bool) (v1 v2 : Point3)
    (hne : i1 ≠ i2) (hf1 : f1 ≠ some true) (hf2 : f2 ≠ some true) (hd : dist v1 v2 = 10) :
    solveGo [gdc i1 i2 (some 5)] 50 (gmk2 .POINT i1 i2 f1 f2 v1 v2) 0 =
      .ok (gmk2 .POINT i1 i2 f1 f2 (v1 + ((1:ℝ)/4 - 1/4 * (1/2)^14) • (v2 - v1))
                                 (v2 - ((1:ℝ)/4 - 1/4 * (1/2)^14) • (v2 - v1)),
           5 * ((1:ℝ)/2)^12) := by
  have hfr := gfam_run .POINT i1 i2 f1 f2 v1 v2 hne hf1 hf2 hd
  have h0 := hfr 12 0
  have h1 := hfr 13 0
  have hbrk := solveGo_break [gdc i1 i2 (some 5)] 13 50
    (gmk2 .POINT i1 i2 f1 f2 v1 v2) 0 _ _ _ _
    (by norm_num) h0 h1
    (by norm_num)
    (fun j sj ej hj hrj => by
      have hfj := hfr j 0
      rw [hfj] at hrj
      have hej : ej = 5 * ((1:ℝ)/2)^j := by
        have h2 := hrj.symm
        simp only [Except.ok.injEq, Prod.mk.injEq] at h2
        exact h2.2
      rw [hej]
      have hle : ((1:ℝ)/2)^12 ≤ (1/2)^j := by
        apply pow_le_pow_of_le_one (by norm_num) (by norm_num)
        omega
      nlinarith)
  rw [hbrk]

/-- Claim C6: for every scene of two non-fixed Point objects 10 units apart
(arbitrary positions in space, arbitrary distinct ids, any non-fixed `fixed`
flags) with a single enabled Distance constraint of target 5: after one
`solve` call the distance is within 0.01 of 5 (it equals 5 + 5/2^14), and the
two endpoints moved by the same displacement magnitude. -/
theorem C6_theorem (i1 i2 : String) (f1 f2 : Option Bool) (v1 v2 : Point3)
    (hne : i1 ≠ i2) (hf1 : f1 ≠ some true) (hf2 : f2 ≠ some true) (hd : dist v1 v2 = 10) :
    solve (gmk2 .POINT i1 i2 f1 f2 v1 v2) [gdc i1 i2 (some 5)] =
      .ok (gmk2 .POINT i1 i2 f1 f2 (v1 + ((1:ℝ)/4 - 1/4 * (1/2)^14) • (v2 - v1))
                                 (v2 - ((1:ℝ)/4 - 1/4 * (1/2)^14) • (v2 - v1)),
           ⟨50, 5 * ((1:ℝ)/2)^12, 1, 1⟩) ∧
    |dist (v1 + ((1:ℝ)/4 - 1/4 * (1/2)^14) • (v2 - v1))
         (v2 - ((1:ℝ)/4 - 1/4 * (1/2)^14) • (v2 - v1)) - 5| < 0.01 ∧
    dist (v1 + ((1:ℝ)/4 - 1/4 * (1/2)^14) • (v2 - v1)) v1 =
      dist (v2 - ((1:ℝ)/4 - 1/4 * (1/2)^14) • (v2 - v1)) v2 := by
  refine ⟨?_, ?_, gfam_move v1 v2 ((1:ℝ)/4 - 1/4 * (1/2)^14)⟩
  · simp only [solve, MAX_ITER, gdc_active, gc6_go i1 i2 f1 f2 v1 v2 hne hf1 hf2 hd,
      exc_ok_bind]
    simp
  · rw [gfam_dist v1 v2 ((1:ℝ)/4 - 1/4 * (1/2)^14) (by norm_num) hd,
      abs_of_pos (by norm_num)]
    norm_num

/-- Witness for C6_theorem at the canonical scene: points (0,0,0), (10,0,0). -/
theorem C6_witness :
    (("A" : String) ≠ "B") ∧ ((none : Option Bool) ≠ some true) ∧
    dist (p3 0 0 0) (p3 10 0 0) = 10 ∧
    (solve (gmk2 .POINT ("A") ("B") none none (p3 0 0 0) (p3 10 0 0))
        [gdc ("A") ("B") (some 5)] =
      .ok (gmk2 .POINT ("A") ("B") none none
            (p3 0 0 0 + ((1:ℝ)/4 - 1/4 * (1/2)^14) • (p3 10 0 0 - p3 0 0 0))
            (p3 10 0 0 - ((1:ℝ)/4 - 1/4 * (1/2)^14) • (p3 10 0 0 - p3 0 0 0)),
           ⟨50, 5 * ((1:ℝ)/2)^12, 1, 1⟩) ∧
    |dist (p3 0 0 0 + ((1:ℝ)/4 - 1/4 * (1/2)^14) • (p3 10 0 0 - p3 0 0 0))
         (p3 10 0 0 - ((1:ℝ)/4 - 1/4 * (1/2)^14) • (p3 10 0 0 - p3 0 0 0)) - 5| < 0.01 ∧
    dist (p3 0 0 0 + ((1:ℝ)/4 - 1/4 * (1/2)^14) • (p3 10 0 0 - p3 0 0 0)) (p3 0 0 0) =
      dist (p3 10 0 0 - ((1:ℝ)/4 - 1/4 * (1/2)^14) • (p3 10 0 0 - p3 0 0 0)) (p3 10 0 0)) := by
  have hd10 : dist (p3 0 0 0) (p3 10 0 0) = 10 := by
    rw [dist_x 0 10 (by norm_num)]
    norm_num
  exact ⟨by decide, by decide, hd10,
    C6_theorem ("A") ("B") none none (p3 0 0 0) (p3 10 0 0)
      (by decide) (by decide) (by decide) hd10⟩

theorem dc_active (t : Option ℝ) : activeOf [dc t] = [dc t] := by
  simp [activeOf, dc, List.filter]

theorem p3_apply_zero (x y z : ℝ) : p3 x y z 0 = x := rfl

theorem p3_ne_of_x {x x' y z y' z' : ℝ} (h : x ≠ x') : p3 x y z ≠ p3 x' y' z' := by
  intro hc
  exact h (by rw [← p3_apply_zero x y z, ← p3_apply_zero x' y' z', hc])

theorem cex_go (ty : ObjectType) : solveGo [dc (some 1.0005)] 50 (mk2 ty 0 1) 0 =
    .ok (mk2 ty (-0.000125) 1.000125, 0) := by
  have h1 : runIters [dc (some 1.0005)] 1 (mk2 ty 0 1, 0) =
      .ok (mk2 ty (0 + (1 - 0 - 1.0005)/2 * (1 - (1/2)^1)) (1 - (1 - 0 - 1.0005)/2 * (1 - (1/2)^1)),
           |1 - 0 - 1.0005| * (1/2)^0) :=
    fam_run ty 0 1 1.0005 (by norm_num) (by norm_num) 0 0
  have h0 : runIters [dc (some 1.0005)] 0 (mk2 ty 0 1, (0:ℝ)) = .ok (mk2 ty 0 1, 0) := rfl
  have hbrk := solveGo_break [dc (some 1.0005)] 0 50 (mk2 ty 0 1) 0 _ _ _ _
    (by norm_num) h0 h1
    (by rw [show |1 - 0 - (1.0005:ℝ)| = 0.0005 by norm_num]; norm_num)
    (fun j sj ej hj hrj => absurd hj (by omega))
  rw [hbrk]
  simp only [Except.ok.injEq, Prod.mk.injEq]
  exact ⟨mk2_congr _ (by norm_num) (by norm_num), trivial⟩

theorem cex_solve (ty : ObjectType) : solve (mk2 ty 0 1) [dc (some 1.0005)] =
    .ok (mk2 ty (-0.000125) 1.000125,
         { iterations := 50, totalError := 0, verified := 1, total := 1 }) := by
  simp only [solve, MAX_ITER, dc_active, cex_go, exc_ok_bind]
  simp [activeOf, dc, List.filter]

theorem cex_iter_err (ty : ObjectType) :
    runIters (activeOf [dc (some 1.0005)]) 1 (mk2 ty 0 1, 0) =
      .ok (mk2 ty (-0.000125) 1.000125, 0.0005) := by
  rw [dc_active]
  have h1 := fam_run ty 0 1 1.0005 (by norm_num) (by norm_num) 0 0
  rw [h1]
  simp only [Except.ok.injEq, Prod.mk.injEq]
  refine ⟨mk2_congr _ (by norm_num) (by norm_num), by norm_num⟩

/-- Claim C1 (code bug): the spec says a resolved MIDPOINT operand that lacks
position data is skipped; the code instead reads it through TypeScript non-null
assertions, so this scene — operand A resolved but without a position — makes
the whole `solve` call raise instead of skipping the constraint. -/
theorem C1_theorem : solve [c1M, c1A, c1B] [c1c] = .error () := rfl

theorem solve_nil : solve [] [] = .ok ([], { iterations := 50, totalError := 0, verified := 0, total := 0 }) := by
  norm_num [solve, solveGo, solveIter, activeOf, MAX_ITER, exc_ok_bind]

/-- Claim C4 (amended): the reported iteration count is always the cap
MAX_ITER = 50, regardless of early convergence; the verified count and the
total both equal the enabled-constraint count. -/
theorem C4_theorem (objs : List Obj) (cs : List Constraint) (out : List Obj) (stats : SolverStats)
    (h : solve objs cs = .ok (out, stats)) :
    stats.iterations = 50 ∧ stats.verified = (activeOf cs).length ∧
      stats.total = (activeOf cs).length := by
  simp only [solve, MAX_ITER] at h
  cases hgo : solveGo (activeOf cs) 50 objs 0 with
  | error err => rw [hgo] at h; simp [exc_error_bind] at h
  | ok r =>
    rw [hgo] at h
    simp only [exc_ok_bind, Except.ok.injEq, Prod.mk.injEq] at h
    obtain ⟨-, hstats⟩ := h
    rw [← hstats]
    exact ⟨rfl, rfl, rfl⟩

/-- Claim C5 (amended): `addConstraint` appends the constraint unchanged — it
does NOT default `enabled` to true; a constraint whose enabled flag is unset
is stored unset and does not participate in any solve (the active set is
unchanged by adding it). -/
theorem C5_theorem (c : Constraint) (prev : List Constraint) (h : c.enabled = none) :
    addConstraint c prev = prev ++ [c] ∧
      activeOf (addConstraint c prev) = activeOf prev := by
  refine ⟨rfl, ?_⟩
  simp [addConstraint, activeOf, List.filter_append, h]

/-- Counterexample to claim C5 as stated: a constraint with `enabled` unset is
stored with `enabled = none` (not defaulted to true), the enabled filter drops
it, and a solve over a violated distance leaves every position unchanged. -/
theorem C5_counterexample :
    addConstraint c5c [] = [c5c] ∧ c5c.enabled ≠ some true ∧ activeOf [c5c] = [] ∧
      solve (mk2 .POINT 0 10) [c5c] =
        .ok (mk2 .POINT 0 10, { iterations := 50, totalError := 0, verified := 0, total := 0 }) := by
  refine ⟨rfl, by simp [c5c], by simp [activeOf, c5c], ?_⟩
  norm_num [solve, solveGo, solveIter, activeOf, c5c, MAX_ITER, exc_ok_bind]

theorem erasePos_setPos (o : Obj) (w : Point3) : erasePos (setPos o w) = erasePos o := by
  cases hd : o.data <;> simp [erasePos, setPos, hd]

theorem length_eq_of_map_erase {a b : List Obj} (h : a.map erasePos = b.map erasePos) :
    a.length = b.length := by
  have := congrArg List.length h
  simpa using this

theorem stepRel_refl (a : List Obj) (r : ℝ) (hr : 0 ≤ r) : stepRel a a r := by
  refine ⟨rfl, fun j h1 h2 => ⟨fun _ => rfl, Iff.rfl, fun p q hp hq => ?_⟩⟩
  rw [hp] at hq
  cases hq
  simpa using hr

theorem stepRel_mono {a b : List Obj} {r r' : ℝ} (hrr : r ≤ r') (h : stepRel a b r) :
    stepRel a b r' := by
  refine ⟨h.1, fun j h1 h2 => ⟨(h.2 j h1 h2).1, (h.2 j h1 h2).2.1, fun p q hp hq => ?_⟩⟩
  exact le_trans ((h.2 j h1 h2).2.2 p q hp hq) hrr

theorem fixed_eq_of_erase {o o' : Obj} (h : erasePos o = erasePos o') : o.fixed = o'.fixed := by
  have := congrArg Obj.fixed h
  simpa [erasePos] using this

theorem erase_get_eq {a b : List Obj} (h : a.map erasePos = b.map erasePos)
    (j : Nat) (h1 : j < a.length) (h2 : j < b.length) :
    erasePos (a.get ⟨j, h1⟩) = erasePos (b.get ⟨j, h2⟩) := by
  have hj1 : j < (a.map erasePos).length := by simpa using h1
  have hj2 : j < (b.map erasePos).length := by simpa using h2
  have ha : (a.map erasePos).get ⟨j, hj1⟩ = erasePos (a.get ⟨j, h1⟩) := by simp
  have hb : (b.map erasePos).get ⟨j, hj2⟩ = erasePos (b.get ⟨j, h2⟩) := by simp
  rw [← ha, ← hb]
  exact List.get_of_eq h ⟨j, hj1⟩

theorem stepRel_trans {a b c : List Obj} {r1 r2 : ℝ}
    (h1 : stepRel a b r1) (h2 : stepRel b c r2) : stepRel a c (r1 + r2) := by
  have hm : a.map erasePos = c.map erasePos := h1.1.trans h2.1
  have hab : a.length = b.length := length_eq_of_map_erase h1.1
  refine ⟨hm, fun j ha hc => ?_⟩
  have hb : j < b.length := hab ▸ ha
  obtain ⟨f1, i1, d1⟩ := h1.2 j ha hb
  obtain ⟨f2, i2, d2⟩ := h2.2 j hb hc
  refine ⟨?_, i1.trans i2, ?_⟩
  · intro hfx
    have hfx' : (b.get ⟨j, hb⟩).fixed = some true := by
      rw [← fixed_eq_of_erase (erase_get_eq h1.1 j ha hb)]
      exact hfx
    rw [f2 hfx', f1 hfx]
  · intro p q hp hq
    cases hbp : posOf (b.get ⟨j, hb⟩) with
    | none =>
      exact absurd (i1.mpr hbp) (by rw [hp]; simp)
    | some m =>
      calc dist p q ≤ dist p m + dist m q := dist_triangle p m q
        _ ≤ r1 + r2 := add_le_add (d1 p m hp hbp) (d2 m q hbp hq)

theorem stepRel_keepsShape {a b : List Obj} {r : ℝ} (h : stepRel a b r) : keepsShape a b :=
  ⟨h.1, fun j h1 h2 => (h.2 j h1 h2).1⟩

theorem keepsShape_refl (a : List Obj) : keepsShape a a :=
  ⟨rfl, fun _ _ _ _ => rfl⟩

theorem keepsShape_trans {a b c : List Obj} (h1 : keepsShape a b) (h2 : keepsShape b c) :
    keepsShape a c := by
  have hab : a.length = b.length := length_eq_of_map_erase h1.1
  refine ⟨h1.1.trans h2.1, fun j ha hc hfx => ?_⟩
  have hb : j < b.length := hab ▸ ha
  have hfx' : (b.get ⟨j, hb⟩).fixed = some true := by
    rw [← fixed_eq_of_erase (erase_get_eq h1.1 j ha hb)]
    exact hfx
  rw [h2.2 j hb hc hfx', h1.2 j ha hb hfx]

theorem setPos_id (o : Obj) (w : Point3) : (setPos o w).id = o.id := rfl

theorem posOf_setPos {o : Obj} {v : Point3} (h : posOf o = some v) (w : Point3) :
    posOf (setPos o w) = some w := by
  cases hd : o.data with
  | none => rw [posOf, hd] at h; simp at h
  | some d => simp [posOf, setPos, hd]

theorem stepRel_cons {o : Obj} {a b : List Obj} {r : ℝ} (hr : 0 ≤ r) (h : stepRel a b r) :
    stepRel (o :: a) (o :: b) r := by
  refine ⟨by simpa using h.1, fun j h1 h2 => ?_⟩
  cases j with
  | zero =>
    refine ⟨fun _ => rfl, Iff.rfl, fun p q hp hq => ?_⟩
    have hp' : posOf o = some p := hp
    have hq' : posOf o = some q := hq
    rw [hp'] at hq'
    cases hq'
    rw [dist_self]
    exact hr
  | succ k =>
    exact h.2 k (Nat.lt_of_succ_lt_succ h1) (Nat.lt_of_succ_lt_succ h2)

theorem updateFirst_stepRel (s : String) (w : Point3) (r : ℝ) (hr : 0 ≤ r) :
    ∀ (objs : List Obj) (q : Obj),
    objs.find? (fun o => o.id == s) = some q →
    q.fixed ≠ some true →
    ∀ (v : Point3), posOf q = some v → dist v w ≤ r →
    stepRel objs (updateFirst objs s (fun o => setPos o w)) r := by
  intro objs
  induction objs with
  | nil => intro q hf; simp [List.find?] at hf
  | cons o rest ih =>
    intro q hf hfix v hpos hd
    by_cases hid : (o.id == s) = true
    · rw [@List.find?_cons_of_pos Obj (fun o => o.id == s) o rest hid] at hf
      have hq : q = o := by cases hf; rfl
      subst hq
      have hup : updateFirst (q :: rest) s (fun o => setPos o w) = setPos q w :: rest := by
        simp [updateFirst, hid]
      rw [hup]
      refine ⟨by simp [erasePos_setPos], fun j h1 h2 => ?_⟩
      cases j with
      | zero =>
        refine ⟨fun hfx => absurd hfx hfix, ?_, fun p p' hp hp' => ?_⟩
        · constructor
          · intro hn
            have hn' : posOf q = none := hn
            rw [hpos] at hn'; cases hn'
          · intro hn
            have hn' : posOf (setPos q w) = none := hn
            rw [posOf_setPos hpos w] at hn'; cases hn'
        · have hp2 : posOf q = some p := hp
          have hw : posOf (setPos q w) = some w := posOf_setPos hpos w
          have hp'2 : posOf (setPos q w) = some p' := hp'
          rw [hw] at hp'2; cases hp'2
          rw [hpos] at hp2; cases hp2
          exact hd
      | succ k =>
        have := stepRel_refl rest r hr
        exact this.2 k (Nat.lt_of_succ_lt_succ h1) (Nat.lt_of_succ_lt_succ h2)
    · rw [@List.find?_cons_of_neg Obj (fun o => o.id == s) o rest (by simpa using hid)] at hf
      have hup : updateFirst (o :: rest) s (fun o => setPos o w) =
          o :: updateFirst rest s (fun o => setPos o w) := by
        simp [updateFirst, hid]
      rw [hup]
      exact stepRel_cons hr (ih q hf hfix v hpos hd)

theorem find?_updateFirst_ne (s1 s2 : String) (w : Point3) (hne : s1 ≠ s2) :
    ∀ (objs : List Obj),
    (updateFirst objs s1 (fun o => setPos o w)).find? (fun o => o.id == s2) =
      objs.find? (fun o => o.id == s2) := by
  intro objs
  induction objs with
  | nil => simp [updateFirst]
  | cons o rest ih =>
    by_cases hid : (o.id == s1) = true
    · have hup : updateFirst (o :: rest) s1 (fun o => setPos o w) = setPos o w :: rest := by
        simp [updateFirst, hid]
      rw [hup]
      have ho1 : o.id = s1 := by simpa using hid
      have ho2 : (o.id == s2) = false := by
        simp [ho1]
        exact hne
      have ho2' : ((setPos o w).id == s2) = false := by
        rw [setPos_id]; exact ho2
      rw [@List.find?_cons_of_neg Obj (fun o => o.id == s2) (setPos o w) rest (by simp [ho2']),
          @List.find?_cons_of_neg Obj (fun o => o.id == s2) o rest (by simp [ho2])]
    · have hup : updateFirst (o :: rest) s1 (fun o => setPos o w) =
          o :: updateFirst rest s1 (fun o => setPos o w) := by
        simp [updateFirst, hid]
      rw [hup]
      by_cases hid2 : (o.id == s2) = true
      · rw [@List.find?_cons_of_pos Obj (fun o => o.id == s2) o
              (updateFirst rest s1 (fun o => setPos o w)) hid2,
            @List.find?_cons_of_pos Obj (fun o => o.id == s2) o rest hid2]
      · rw [@List.find?_cons_of_neg Obj (fun o => o.id == s2) o
              (updateFirst rest s1 (fun o => setPos o w)) (by simpa using hid2),
            @List.find?_cons_of_neg Obj (fun o => o.id == s2) o rest (by simpa using hid2)]
        exact ih

theorem norm_offset (v1 v2 : Point3) (t : ℝ) (hd : (0.0001 : ℝ) < dist v1 v2) :
    ‖((dist v1 v2 - t) / dist v1 v2 * 0.5 * LEARNING_RATE) • (v2 - v1)‖ =
      0.25 * |dist v1 v2 - t| := by
  have hd0 : (0:ℝ) < dist v1 v2 := lt_trans (by norm_num) hd
  rw [norm_smul, Real.norm_eq_abs]
  have hnv : ‖v2 - v1‖ = dist v1 v2 := by rw [← dist_eq_norm, dist_comm]
  rw [hnv, LEARNING_RATE, abs_mul, abs_mul, abs_div, abs_of_pos hd0,
      abs_of_pos (show (0:ℝ) < 0.5 by norm_num)]
  field_simp
  ring

theorem findObj_spec {objs : List Obj} {io : Option String} {q : Obj}
    (h : findObj objs io = some q) :
    ∃ s, io = some s ∧ objs.find? (fun o => o.id == s) = some q ∧ q.id = s := by
  cases io with
  | none => simp [findObj] at h
  | some s =>
    have h' : objs.find? (fun o => o.id == s) = some q := h
    have hb : (fun o => o.id == s) q = true := @List.find?_some Obj (fun o => o.id == s) q objs h'
    have hb2 : (q.id == s) = true := hb
    exact ⟨s, rfl, h', eq_of_beq hb2⟩

theorem applyDistance_stepRel (objs : List Obj) (c : Constraint) (b : List Obj) (e : ℝ)
    (h : applyDistance objs c = (b, e)) : 0 ≤ e ∧ stepRel objs b (0.5 * e) := by
  unfold applyDistance at h
  cases hf1 : findObj objs (c.objectIds.get? 0) with
  | none =>
    rw [hf1] at h
    simp only at h
    obtain ⟨hb, he⟩ := Prod.mk.inj h
    subst hb; subst he
    exact ⟨le_rfl, stepRel_refl objs _ (by norm_num)⟩
  | some q1 =>
    cases hf2 : findObj objs (c.objectIds.get? 1) with
    | none =>
      rw [hf1, hf2] at h
      simp only at h
      obtain ⟨hb, he⟩ := Prod.mk.inj h
      subst hb; subst he
      exact ⟨le_rfl, stepRel_refl objs _ (by norm_num)⟩
    | some q2 =>
      rw [hf1, hf2] at h
      simp only at h
      cases hp1 : posOf q1 with
      | none =>
        rw [hp1] at h
        simp only at h
        obtain ⟨hb, he⟩ := Prod.mk.inj h
        subst hb; subst he
        exact ⟨le_rfl, stepRel_refl objs _ (by norm_num)⟩
      | some v1 =>
        cases hp2 : posOf q2 with
        | none =>
          rw [hp1, hp2] at h
          simp only at h
          obtain ⟨hb, he⟩ := Prod.mk.inj h
          subst hb; subst he
          exact ⟨le_rfl, stepRel_refl objs _ (by norm_num)⟩
        | some v2 =>
          rw [hp1, hp2] at h
          simp only at h
          by_cases hdlt : (0.0001 : ℝ) < dist v1 v2
          · rw [if_pos hdlt] at h
            obtain ⟨hb, he⟩ := Prod.mk.inj h
            subst he
            obtain ⟨s1, hg1, hfind1, hid1⟩ := findObj_spec hf1
            obtain ⟨s2, hg2, hfind2, hid2⟩ := findObj_spec hf2
            rw [← hid1] at hfind1
            rw [← hid2] at hfind2
            have hnorm := norm_offset v1 v2 (c.targetValue.getD 0) hdlt
            have hd1 : dist v1 (v1 + ((dist v1 v2 - c.targetValue.getD 0) / dist v1 v2 * 0.5 *
                LEARNING_RATE) • (v2 - v1)) = 0.25 * |dist v1 v2 - c.targetValue.getD 0| := by
              rw [dist_self_add_right]; exact hnorm
            have hd2 : dist v2 (v2 - ((dist v1 v2 - c.targetValue.getD 0) / dist v1 v2 * 0.5 *
                LEARNING_RATE) • (v2 - v1)) = 0.25 * |dist v1 v2 - c.targetValue.getD 0| := by
              rw [sub_eq_add_neg, dist_self_add_right, norm_neg]; exact hnorm
            have habs : (0:ℝ) ≤ |dist v1 v2 - c.targetValue.getD 0| := abs_nonneg _
            have hq : (0:ℝ) ≤ 0.25 * |dist v1 v2 - c.targetValue.getD 0| := by positivity
            have hmono : (0.25 : ℝ) * |dist v1 v2 - c.targetValue.getD 0| ≤
                0.5 * |dist v1 v2 - c.targetValue.getD 0| := by nlinarith
            refine ⟨habs, ?_⟩
            by_cases hx2 : q2.fixed = some true
            · rw [if_pos hx2] at hb
              by_cases hx1 : q1.fixed = some true
              · rw [if_pos hx1] at hb
                subst hb
                exact stepRel_refl objs _ (by positivity)
              · rw [if_neg hx1] at hb
                subst hb
                exact stepRel_mono hmono
                  (updateFirst_stepRel q1.id _ _ hq objs q1 hfind1 hx1 v1 hp1 (le_of_eq hd1))
            · rw [if_neg hx2] at hb
              by_cases hx1 : q1.fixed = some true
              · rw [if_pos hx1] at hb
                subst hb
                exact stepRel_mono hmono
                  (updateFirst_stepRel q2.id _ _ hq objs q2 hfind2 hx2 v2 hp2 (le_of_eq hd2))
              · rw [if_neg hx1] at hb
                subst hb
                have hne : s1 ≠ s2 := by
                  intro hcontra
                  have hkey : q1.id = q2.id := by rw [hid1, hid2]; exact hcontra
                  rw [hkey] at hfind1
                  rw [hfind1] at hfind2
                  have hqq : q1 = q2 := by cases hfind2; rfl
                  rw [← hqq] at hp2
                  rw [hp1] at hp2
                  cases hp2
                  rw [dist_self] at hdlt
                  norm_num at hdlt
                have hstep1 : stepRel objs
                    (updateFirst objs q1.id (fun o => setPos o (v1 + ((dist v1 v2 -
                      c.targetValue.getD 0) / dist v1 v2 * 0.5 * LEARNING_RATE) • (v2 - v1))))
                    (0.25 * |dist v1 v2 - c.targetValue.getD 0|) :=
                  updateFirst_stepRel q1.id _ _ hq objs q1 hfind1 hx1 v1 hp1 (le_of_eq hd1)
                have hfind2' : (updateFirst objs q1.id (fun o => setPos o (v1 + ((dist v1 v2 -
                    c.targetValue.getD 0) / dist v1 v2 * 0.5 * LEARNING_RATE) • (v2 - v1)))).find?
                      (fun o => o.id == q2.id) = some q2 := by
                  rw [hid1, hid2]
                  rw [find?_updateFirst_ne s1 s2 _ hne objs]
                  rw [← hid2]
                  exact hfind2
                have hstep2 := updateFirst_stepRel q2.id _ _ hq _ q2 hfind2' hx2 v2 hp2 (le_of_eq hd2)
                have := stepRel_trans hstep1 hstep2
                rw [show (0.25 * |dist v1 v2 - c.targetValue.getD 0| +
                    0.25 * |dist v1 v2 - c.targetValue.getD 0|) =
                    0.5 * |dist v1 v2 - c.targetValue.getD 0| by ring] at this
                exact this
          · rw [if_neg hdlt] at h
            obtain ⟨hb, he⟩ := Prod.mk.inj h
            subst hb; subst he
            exact ⟨abs_nonneg _, stepRel_refl objs _ (by positivity)⟩

theorem applyMidpoint_stepRel (objs : List Obj) (c : Constraint) (b : List Obj) (e : ℝ)
    (h : applyMidpoint objs c = .ok (b, e)) : 0 ≤ e ∧ stepRel objs b (0.5 * e) := by
  unfold applyMidpoint at h
  cases hf1 : findObj objs (c.objectIds.get? 0) with
  | none =>
    rw [hf1] at h
    simp only at h
    cases h
    exact ⟨le_rfl, stepRel_refl objs _ (by norm_num)⟩
  | some m =>
    cases hf2 : findObj objs (c.objectIds.get? 1) with
    | none =>
      rw [hf1, hf2] at h
      simp only at h
      cases h
      exact ⟨le_rfl, stepRel_refl objs _ (by norm_num)⟩
    | some a =>
      cases hf3 : findObj objs (c.objectIds.get? 2) with
      | none =>
        rw [hf1, hf2, hf3] at h
        simp only at h
        cases h
        exact ⟨le_rfl, stepRel_refl objs _ (by norm_num)⟩
      | some bb =>
        rw [hf1, hf2, hf3] at h
        simp only at h
        cases hm : posOf m with
        | none => rw [getPosBang, hm] at h; simp [exc_error_bind] at h
        | some vM =>
          cases ha : posOf a with
          | none =>
            rw [getPosBang, hm, getPosBang, ha] at h
            simp [exc_ok_bind, exc_error_bind] at h
          | some vA =>
            cases hb3 : posOf bb with
            | none =>
              rw [getPosBang, hm, getPosBang, ha, getPosBang, hb3] at h
              simp [exc_ok_bind, exc_error_bind] at h
            | some vB =>
              rw [getPosBang, hm, getPosBang, ha, getPosBang, hb3] at h
              simp only [exc_ok_bind, Except.ok.injEq] at h
              obtain ⟨hb, he⟩ := Prod.mk.inj h
              subst he
              have hdn : (0:ℝ) ≤ dist vM ((0.5 : ℝ) • (vA + vB)) := dist_nonneg
              refine ⟨hdn, ?_⟩
              by_cases hfx : m.fixed = some true
              · rw [if_pos hfx] at hb
                subst hb
                exact stepRel_refl objs _ (by positivity)
              · rw [if_neg hfx] at hb
                subst hb
                obtain ⟨s, hg, hfind, hid⟩ := findObj_spec hf1
                rw [← hid] at hfind
                have hmv : dist vM (vM + LEARNING_RATE • ((0.5 : ℝ) • (vA + vB) - vM)) =
                    0.5 * dist vM ((0.5 : ℝ) • (vA + vB)) := by
                  rw [dist_self_add_right, norm_smul, Real.norm_eq_abs, LEARNING_RATE,
                      abs_of_pos (show (0:ℝ) < 0.5 by norm_num), ← dist_eq_norm, dist_comm]
                exact updateFirst_stepRel m.id _ _ (by positivity) objs m hfind hfx vM hm
                  (le_of_eq hmv)

theorem applyConstraint_stepRel (objs : List Obj) (c : Constraint) (b : List Obj) (e : ℝ)
    (h : applyConstraint objs c = .ok (b, e)) : 0 ≤ e ∧ stepRel objs b (0.5 * e) := by
  unfold applyConstraint at h
  by_cases hty : c.type = ConstraintType.DISTANCE
  · rw [if_pos hty] at h
    simp only [Except.ok.injEq] at h
    exact applyDistance_stepRel objs c b e h
  · rw [if_neg hty] at h
    by_cases hty2 : c.type = ConstraintType.MIDPOINT
    · rw [if_pos hty2] at h
      exact applyMidpoint_stepRel objs c b e h
    · rw [if_neg hty2] at h
      simp only [Except.ok.injEq] at h
      obtain ⟨hb, he⟩ := Prod.mk.inj h
      subst hb; subst he
      exact ⟨le_rfl, stepRel_refl objs _ (by norm_num)⟩

theorem solveIter_stepRel : ∀ (cs : List Constraint) (objs : List Obj) (b : List Obj) (e : ℝ),
    solveIter objs cs = .ok (b, e) → 0 ≤ e ∧ stepRel objs b (0.5 * e) := by
  intro cs
  induction cs with
  | nil =>
    intro objs b e h
    simp only [solveIter, Except.ok.injEq] at h
    obtain ⟨hb, he⟩ := Prod.mk.inj h
    subst hb; subst he
    exact ⟨le_rfl, stepRel_refl objs _ (by norm_num)⟩
  | cons c rest ih =>
    intro objs b e h
    simp only [solveIter] at h
    cases hac : applyConstraint objs c with
    | error err => rw [hac] at h; simp [exc_error_bind] at h
    | ok r1 =>
      rw [hac] at h
      rw [exc_ok_bind] at h
      cases hsi : solveIter r1.1 rest with
      | error err => rw [hsi] at h; simp [exc_error_bind] at h
      | ok r2 =>
        rw [hsi] at h
        rw [exc_ok_bind] at h
        simp only [Except.ok.injEq] at h
        obtain ⟨hb, he⟩ := Prod.mk.inj h
        subst hb; subst he
        obtain ⟨he1, hs1⟩ := applyConstraint_stepRel objs c r1.1 r1.2 (by rw [hac])
        obtain ⟨he2, hs2⟩ := ih r1.1 r2.1 r2.2 (by rw [hsi])
        refine ⟨by positivity, ?_⟩
        have := stepRel_trans hs1 hs2
        rw [show 0.5 * r1.2 + 0.5 * r2.2 = 0.5 * (r1.2 + r2.2) by ring] at this
        exact this

theorem solveGo_keepsShape (active : List Constraint) :
    ∀ (n : Nat) (objs : List Obj) (res : ℝ) (b : List Obj) (e : ℝ),
    solveGo active n objs res = .ok (b, e) → keepsShape objs b := by
  intro n
  induction n with
  | zero =>
    intro objs res b e h
    simp only [solveGo, Except.ok.injEq] at h
    obtain ⟨hb, _⟩ := Prod.mk.inj h
    subst hb
    exact keepsShape_refl objs
  | succ m ih =>
    intro objs res b e h
    simp only [solveGo] at h
    cases hsi : solveIter objs active with
    | error err => rw [hsi] at h; simp [exc_error_bind] at h
    | ok r =>
      rw [hsi, exc_ok_bind] at h
      have hks1 : keepsShape objs r.1 :=
        stepRel_keepsShape (solveIter_stepRel active objs r.1 r.2 (by rw [hsi])).2
      by_cases hc : r.2 < 0.001
      · rw [if_pos hc] at h
        simp only [Except.ok.injEq] at h
        obtain ⟨hb, _⟩ := Prod.mk.inj h
        subst hb
        exact hks1
      · rw [if_neg hc] at h
        exact keepsShape_trans hks1 (ih r.1 r.2 b e h)

/-- Claim C2 (amended): `solve` never creates or deletes entities and rewrites
only position fields, and every object with `fixed = true` keeps its position.
Amended: the solver does not restrict itself to Point-type objects — any
object carrying a position may be moved. -/
theorem C2_theorem (objs : List Obj) (cs : List Constraint) (out : List Obj) (stats : SolverStats)
    (h : solve objs cs = .ok (out, stats)) :
    out.map erasePos = objs.map erasePos ∧
    ∀ (j : Nat) (h1 : j < objs.length) (h2 : j < out.length),
      (objs.get ⟨j, h1⟩).fixed = some true →
      posOf (out.get ⟨j, h2⟩) = posOf (objs.get ⟨j, h1⟩) := by
  simp only [solve, MAX_ITER] at h
  cases hgo : solveGo (activeOf cs) 50 objs 0 with
  | error err => rw [hgo] at h; simp [exc_error_bind] at h
  | ok r =>
    rw [hgo, exc_ok_bind] at h
    simp only [Except.ok.injEq] at h
    obtain ⟨hpair, -⟩ := Prod.mk.inj h
    have hks := solveGo_keepsShape (activeOf cs) 50 objs 0 r.1 r.2 (by rw [hgo])
    rw [← hpair]
    exact ⟨hks.1.symm, hks.2⟩

/-- Claim C7: on a scene whose summed per-iteration error is already below the
0.001 threshold, `solve` stops after the first iteration and changes no
object's position by more than 0.001 (each move is bounded by half the
iteration error). -/
theorem C7_theorem (objs : List Obj) (cs : List Constraint) (s1 : List Obj) (e : ℝ)
    (hiter : solveIter objs (activeOf cs) = .ok (s1, e)) (he : e < 0.001) :
    solve objs cs = .ok (s1, ⟨MAX_ITER, 0, (activeOf cs).length, (activeOf cs).length⟩) ∧
    ∀ (j : Nat) (h1 : j < objs.length) (h2 : j < s1.length) (p q : Point3),
      posOf (objs.get ⟨j, h1⟩) = some p → posOf (s1.get ⟨j, h2⟩) = some q →
      dist p q ≤ 0.001 := by
  constructor
  · simp only [solve, MAX_ITER]
    have hstep : solveGo (activeOf cs) 50 objs 0 = .ok (s1, 0) := by
      simp [solveGo, hiter, exc_ok_bind, he]
    rw [hstep, exc_ok_bind]
  · obtain ⟨hen, hsr⟩ := solveIter_stepRel (activeOf cs) objs s1 e hiter
    have hb : (0.5 : ℝ) * e ≤ 0.001 := by linarith
    intro j h1 h2 p q hp hq
    exact le_trans ((hsr.2 j h1 h2).2.2 p q hp hq) hb

/-- Claim C3 (amended): on early convergence iteration stops, but the reported
residual is the PREVIOUS iteration's total error (0 when the first iteration
converges), because the `break` precedes the `totalResidual` assignment; when
the 50-iteration cap is reached the residual is the last iteration's total. -/
theorem C3_theorem (objs : List Obj) (cs : List Constraint) :
    (∀ (k : Nat) (s' : List Obj) (e' : ℝ) (s : List Obj) (e : ℝ), k < MAX_ITER →
      runIters (activeOf cs) k (objs, 0) = .ok (s', e') →
      runIters (activeOf cs) (k + 1) (objs, 0) = .ok (s, e) →
      e < 0.001 →
      (∀ (j : Nat) (sj : List Obj) (ej : ℝ), j < k →
        runIters (activeOf cs) (j + 1) (objs, 0) = .ok (sj, ej) → 0.001 ≤ ej) →
      solve objs cs =
        .ok (s, ⟨MAX_ITER, e', (activeOf cs).length, (activeOf cs).length⟩)) ∧
    (∀ (s : List Obj) (e : ℝ),
      runIters (activeOf cs) MAX_ITER (objs, 0) = .ok (s, e) →
      (∀ (j : Nat) (sj : List Obj) (ej : ℝ), j < MAX_ITER →
        runIters (activeOf cs) (j + 1) (objs, 0) = .ok (sj, ej) → 0.001 ≤ ej) →
      solve objs cs =
        .ok (s, ⟨MAX_ITER, e, (activeOf cs).length, (activeOf cs).length⟩)) := by
  constructor
  · intro k s' e' s e hk h0 h1 he hmin
    have hgo := solveGo_break (activeOf cs) k MAX_ITER objs 0 s' e' s e hk h0 h1 he hmin
    simp only [solve, MAX_ITER] at *
    rw [hgo, exc_ok_bind]
  · intro s e h0 hmin
    have hgo := solveGo_cap (activeOf cs) MAX_ITER objs 0 s e h0 hmin
    simp only [solve, MAX_ITER] at *
    rw [hgo, exc_ok_bind]

theorem applyDistance_congr (c c' : Constraint) (hids : c.objectIds = c'.objectIds)
    (htv : c.targetValue.getD 0 = c'.targetValue.getD 0) :
    ∀ (objs : List Obj), applyDistance objs c = applyDistance objs c' := by
  intro objs
  simp only [applyDistance, hids, htv]

theorem applyConstraint_congr (c c' : Constraint) (hty : c.type = c'.type)
    (hids : c.objectIds = c'.objectIds)
    (htv : c.targetValue.getD 0 = c'.targetValue.getD 0) :
    ∀ (objs : List Obj), applyConstraint objs c = applyConstraint objs c' := by
  intro objs
  simp only [applyConstraint, hty, applyDistance_congr c c' hids htv objs]
  by_cases h1 : c'.type = ConstraintType.DISTANCE
  · simp [h1]
  · simp only [if_neg h1]
    by_cases h2 : c'.type = ConstraintType.MIDPOINT
    · simp only [if_pos h2]
      simp only [applyMidpoint, hids]
    · simp [h2]

theorem solveIter_congr (c c' : Constraint)
    (happ : ∀ (objs : List Obj), applyConstraint objs c = applyConstraint objs c') :
    ∀ (l1 l2 : List Constraint) (objs : List Obj),
    solveIter objs (l1 ++ c :: l2) = solveIter objs (l1 ++ c' :: l2) := by
  intro l1
  induction l1 with
  | nil =>
    intro l2 objs
    simp only [List.nil_append, solveIter, happ objs]
  | cons d rest ih =>
    intro l2 objs
    simp only [List.cons_append, solveIter]
    cases had : applyConstraint objs d with
    | error err => rfl
    | ok r =>
      simp only [exc_ok_bind, List.append_eq]
      rw [ih l2 r.1]

theorem solveGo_congr (c c' : Constraint)
    (happ : ∀ (objs : List Obj), applyConstraint objs c = applyConstraint objs c')
    (l1 l2 : List Constraint) :
    ∀ (n : Nat) (objs : List Obj) (res : ℝ),
    solveGo (l1 ++ c :: l2) n objs res = solveGo (l1 ++ c' :: l2) n objs res := by
  intro n
  induction n with
  | zero => intro objs res; rfl
  | succ m ih =>
    intro objs res
    simp only [solveGo, solveIter_congr c c' happ l1 l2 objs]
    cases hsi : solveIter objs (l1 ++ c' :: l2) with
    | error err => rfl
    | ok r =>
      simp only [exc_ok_bind]
      by_cases hc : r.2 < 0.001
      · simp [hc]
      · simp only [if_neg hc, ih r.1 r.2]

theorem solve_congr_target (c : Constraint) (htv : c.targetValue = none)
    (objs : List Obj) (cs1 cs2 : List Constraint) :
    solve objs (cs1 ++ c :: cs2) =
      solve objs (cs1 ++ ({ c with targetValue := some 0 }) :: cs2) := by
  have happ := applyConstraint_congr c { c with targetValue := some 0 } rfl rfl
    (by rw [htv]; rfl)
  by_cases hen : (c.enabled == some true) = true
  · have ha1 : activeOf (cs1 ++ c :: cs2) = activeOf cs1 ++ c :: activeOf cs2 := by
      simp only [activeOf, List.filter_append, List.filter_cons, hen, if_true]
    have ha2 : activeOf (cs1 ++ ({ c with targetValue := some 0 }) :: cs2) =
        activeOf cs1 ++ ({ c with targetValue := some 0 }) :: activeOf cs2 := by
      simp only [activeOf, List.filter_append, List.filter_cons]
      rw [if_pos hen]
    simp only [solve, ha1, ha2, MAX_ITER]
    rw [solveGo_congr c { c with targetValue := some 0 } happ
      (activeOf cs1) (activeOf cs2) 50 objs 0]
    have hlen : (activeOf cs1 ++ c :: activeOf cs2).length =
        (activeOf cs1 ++ ({ c with targetValue := some 0 }) :: activeOf cs2).length := by
      simp
    rw [hlen]
  · have ha1 : activeOf (cs1 ++ c :: cs2) = activeOf cs1 ++ activeOf cs2 := by
      simp only [activeOf, List.filter_append, List.filter_cons]
      rw [if_neg hen]
    have ha2 : activeOf (cs1 ++ ({ c with targetValue := some 0 }) :: cs2) =
        activeOf cs1 ++ activeOf cs2 := by
      simp only [activeOf, List.filter_append, List.filter_cons]
      rw [if_neg hen]
    simp only [solve, ha1, ha2]

theorem distErr_eq_dist (c : Constraint) (objs : List Obj) (q1 q2 : Obj) (v1 v2 : Point3)
    (htv : c.targetValue = none)
    (hf1 : findObj objs (c.objectIds.get? 0) = some q1)
    (hf2 : findObj objs (c.objectIds.get? 1) = some q2)
    (hp1 : posOf q1 = some v1) (hp2 : posOf q2 = some v2) :
    (applyDistance objs c).2 = dist v1 v2 := by
  unfold applyDistance
  rw [hf1, hf2]
  simp only
  rw [hp1, hp2]
  simp only [htv, Option.getD_none]
  have habs : |dist v1 v2 - 0| = dist v1 v2 := by
    rw [sub_zero, abs_of_nonneg dist_nonneg]
  by_cases hdlt : (0.0001 : ℝ) < dist v1 v2
  · rw [if_pos hdlt]
    exact habs
  · rw [if_neg hdlt]
    exact habs

theorem fam_step_none (ty : ObjectType) (a b : ℝ) (h : 0.0001 < b - a) :
    applyDistance (mk2 ty a b) (dc none) =
      (mk2 ty (a + (b - a)/4) (b - (b - a)/4), b - a) ∧
    dist (p3 (a + (b - a)/4) 0 0) (p3 (b - (b - a)/4) 0 0) = (b - a)/2 := by
  constructor
  · have := fam_step ty a b none h
    simp only [Option.getD_none, sub_zero] at this
    rw [this]
    simp only [Prod.mk.injEq]
    exact ⟨trivial, abs_of_pos (by linarith)⟩
  · rw [dist_x _ _ (by linarith)]
    ring

theorem boxFold_go (l : List Point3) :
    ∀ (a b mn mx : Point3), l.foldl boxStep (some (a, b)) = some (mn, mx) →
    (∀ i, mn i ≤ a i ∧ b i ≤ mx i) ∧ (∀ q ∈ l, ∀ i, mn i ≤ q i ∧ q i ≤ mx i) := by
  induction l with
  | nil =>
    intro a b mn mx h
    simp only [List.foldl_nil, Option.some.injEq] at h
    obtain ⟨ha, hb⟩ := Prod.mk.inj h
    subst ha; subst hb
    exact ⟨fun i => ⟨le_refl _, le_refl _⟩, by simp⟩
  | cons p rest ih =>
    intro a b mn mx h
    simp only [List.foldl_cons] at h
    rw [show boxStep (some (a, b)) p = some (vmin a p, vmax b p) from rfl] at h
    obtain ⟨hacc, hmem⟩ := ih (vmin a p) (vmax b p) mn mx h
    constructor
    · intro i
      exact ⟨le_trans (hacc i).1 (min_le_left _ _), le_trans (le_max_left _ _) (hacc i).2⟩
    · intro q hq i
      rcases List.mem_cons.mp hq with hq | hq
      · subst hq
        exact ⟨le_trans (hacc i).1 (min_le_right _ _), le_trans (le_max_right _ _) (hacc i).2⟩
      · exact hmem q hq i

theorem boxFold_bounds (l : List Point3) (mn mx : Point3) (h : boxFold l = some (mn, mx)) :
    ∀ q ∈ l, ∀ i, mn i ≤ q i ∧ q i ≤ mx i := by
  cases l with
  | nil => simp [boxFold] at h
  | cons p rest =>
    have h' : rest.foldl boxStep (some (p, p)) = some (mn, mx) := h
    obtain ⟨hacc, hmem⟩ := boxFold_go rest p p mn mx h'
    intro q hq i
    rcases List.mem_cons.mp hq with hq | hq
    · subst hq
      exact ⟨(hacc i).1, (hacc i).2⟩
    · exact hmem q hq i

theorem cov_default (objs : List Obj) (h : framedPositions objs = []) :
    computeOptimalView objs = ⟨INITIAL_CAMERA_POS, INITIAL_CAMERA_TARGET⟩ := by
  unfold computeOptimalView
  by_cases h0 : objs.length = 0
  · rw [if_pos h0]
  · rw [if_neg h0]
    by_cases h1 : (objs.filter (fun o => o.visible == some true)).length = 0
    · rw [if_pos h1]
    · rw [if_neg h1]
      have hbf : boxFold ((objs.filter (fun o => o.visible == some true)).filterMap posOf) =
          none := by
        rw [show (objs.filter (fun o => o.visible == some true)).filterMap posOf =
          framedPositions objs from rfl, h]
        rfl
      rw [hbf]

theorem cov_formula (objs : List Obj) (mn mx : Point3)
    (h : boxFold (framedPositions objs) = some (mn, mx)) :
    computeOptimalView objs =
      ⟨(0.5 : ℝ) • (mn + mx) +
        (max ((mx - mn) 0) (max ((mx - mn) 1) ((mx - mn) 2)) * 4.0 + 5) •
          normalize3 (p3 1 0.8 1),
       (0.5 : ℝ) • (mn + mx)⟩ := by
  have hne : framedPositions objs ≠ [] := by
    intro hc
    rw [hc] at h
    simp [boxFold] at h
  have hvis : objs.filter (fun o => o.visible == some true) ≠ [] := by
    intro hc
    apply hne
    rw [framedPositions, hc]
    rfl
  have h0 : ¬ objs.length = 0 := by
    intro hc
    apply hvis
    rw [List.length_eq_zero] at hc
    rw [hc]
    rfl
  have h1 : ¬ (objs.filter (fun o => o.visible == some true)).length = 0 := by
    intro hc
    exact hvis (List.length_eq_zero.mp hc)
  unfold computeOptimalView
  rw [if_neg h0, if_neg h1]
  rw [show (objs.filter (fun o => o.visible == some true)).filterMap posOf =
    framedPositions objs from rfl, h]

theorem p3_zero : p3 0 0 0 = 0 := by
  funext i; fin_cases i <;> simp [p3]

theorem p3_one_ne_zero : p3 1 0.8 1 ≠ 0 := by
  rw [← p3_zero]
  exact p3_ne_of_x (by norm_num)

theorem norm_normalize3 (v : Point3) (hv : v ≠ 0) : ‖normalize3 v‖ = 1 := by
  rw [normalize3, norm_smul, norm_inv, norm_norm]
  exact inv_mul_cancel₀ (norm_ne_zero_iff.mpr hv)

theorem cov_single (o : Obj) (pos : Point3) (hv : o.visible = some true)
    (hp : posOf o = some pos) :
    computeOptimalView [o] = ⟨pos + (5:ℝ) • normalize3 (p3 1 0.8 1), pos⟩ ∧
    dist (pos + (5:ℝ) • normalize3 (p3 1 0.8 1)) pos = 5 := by
  constructor
  · have hfp : framedPositions [o] = [pos] := by
      simp [framedPositions, hv, List.filter, hp]
    have hbf : boxFold (framedPositions [o]) = some (pos, pos) := by
      rw [hfp]; rfl
    rw [cov_formula [o] pos pos hbf]
    have hc : (0.5 : ℝ) • (pos + pos) = pos := by
      rw [← two_smul ℝ pos, smul_smul]
      norm_num
    have hs : ∀ i : Fin 3, (pos - pos) i = 0 := by
      intro i
      rw [sub_self]
      rfl
    rw [hc, hs 0, hs 1, hs 2]
    norm_num
  · rw [dist_comm, dist_self_add_right, norm_smul, Real.norm_eq_abs,
        norm_normalize3 _ p3_one_ne_zero]
    norm_num

theorem ensureId_fields (f : String) (o : Obj) :
    (ensureId f o).type = o.type ∧ (ensureId f o).points = o.points ∧
      (ensureId f o).data = o.data := by
  unfold ensureId
  split <;> exact ⟨rfl, rfl, rfl⟩

theorem ensureVisible_fields (o : Obj) :
    (ensureVisible o).type = o.type ∧ (ensureVisible o).points = o.points ∧
      (ensureVisible o).data = o.data := by
  unfold ensureVisible
  split <;> exact ⟨rfl, rfl, rfl⟩

/-- Claim C9: inserting a Segment payload that supplies truthy endpoint ids
`data.p1`, `data.p2` and an empty or absent `points` list stores the object
with `points = [p1, p2]` in the order given. -/
theorem C9_theorem (freshId : String) (prev : List Obj) (o : Obj) (d : ObjData) (s1 s2 : String)
    (hty : o.type = ObjectType.SEGMENT)
    (hpts : o.points = none ∨ o.points = some [])
    (hd : o.data = some d) (hp1 : d.p1 = some s1) (hp2 : d.p2 = some s2)
    (hs1 : s1 ≠ "") (hs2 : s2 ≠ "") :
    (normalizeObj freshId o).points = some [s1, s2] ∧
    ((∃ k, addObject freshId o prev = prev.set k (normalizeObj freshId o)) ∨
      addObject freshId o prev = prev ++ [normalizeObj freshId o]) := by
  constructor
  · obtain ⟨ht1, hq1, hd1⟩ := ensureId_fields freshId o
    obtain ⟨ht2, hq2, hd2⟩ := ensureVisible_fields (ensureId freshId o)
    have hu_ty : (ensureVisible (ensureId freshId o)).type = ObjectType.SEGMENT := by
      rw [ht2, ht1, hty]
    have hu_pts : (ensureVisible (ensureId freshId o)).points = none ∨
        (ensureVisible (ensureId freshId o)).points = some [] := by
      rw [hq2, hq1]; exact hpts
    have hu_d : (ensureVisible (ensureId freshId o)).data = some d := by
      rw [hd2, hd1]; exact hd
    have hseg : normalizeSegment (ensureVisible (ensureId freshId o)) =
        { ensureVisible (ensureId freshId o) with points := some [s1, s2] } := by
      unfold normalizeSegment
      rw [if_pos hu_ty, if_pos hu_pts]
      rw [hu_d]
      have hcond : truthyStr d.p1 = true ∧ truthyStr d.p2 = true := by
        rw [hp1, hp2]
        exact ⟨by simpa [truthyStr] using hs1, by simpa [truthyStr] using hs2⟩
      simp only [hp1, hp2, Option.getD_some]
      rw [if_pos ⟨by simpa [truthyStr] using hs1, by simpa [truthyStr] using hs2⟩, hu_d]
    unfold normalizeObj
    rw [hseg]
    unfold normalizePolygon
    rw [if_neg (by rw [show ({ ensureVisible (ensureId freshId o) with
      points := some [s1, s2] } : Obj).type = (ensureVisible (ensureId freshId o)).type
      from rfl, hu_ty]; decide)]
  · unfold addObject
    cases hfi : (prev.findIdx? (fun p => p.id == (normalizeObj freshId o).id)) with
    | none =>
      right
      simp only [hfi]
    | some k =>
      left
      exact ⟨k, by simp only [hfi]⟩

/-- Witness for C9_theorem at a concrete Segment payload. -/
theorem C9_witness :
    o9.type = ObjectType.SEGMENT ∧ o9.data = some { p1 := some ("A"), p2 := some ("B") } ∧
    (normalizeObj ("f") o9).points = some ["A", "B"] ∧
    ((∃ k, addObject ("f") o9 [] = [].set k (normalizeObj ("f") o9)) ∨
      addObject ("f") o9 [] = [] ++ [normalizeObj ("f") o9]) := by
  refine ⟨rfl, rfl, ?_, ?_⟩
  · exact (C9_theorem ("f") [] o9 _ ("A") "B" rfl (Or.inl rfl) rfl rfl rfl
      (by decide) (by decide)).1
  · exact (C9_theorem ("f") [] o9 _ ("A") "B" rfl (Or.inl rfl) rfl rfl rfl
      (by decide) (by decide)).2

theorem applyDistance_err_spec (c : Constraint) (objs : List Obj) (q1 q2 : Obj) (v1 v2 : Point3)
    (hty : c.type = ConstraintType.DISTANCE) (htv : c.targetValue = none)
    (hf1 : findObj objs (c.objectIds.get? 0) = some q1)
    (hf2 : findObj objs (c.objectIds.get? 1) = some q2)
    (hp1 : posOf q1 = some v1) (hp2 : posOf q2 = some v2) :
    applyConstraint objs c = .ok (applyDistance objs c) ∧
      (applyDistance objs c).2 = dist v1 v2 := by
  constructor
  · simp [applyConstraint, hty]
  · exact distErr_eq_dist c objs q1 q2 v1 v2 htv hf1 hf2 hp1 hp2

/-- Claim C10: an absent Distance `targetValue` is treated as 0: `solve` is
unchanged when `targetValue = none` is replaced by an explicit `some 0`; the
accumulated error is the full current distance between the two points; and on
a free two-point scene one correction step moves the points toward each other,
halving their gap. -/
theorem C10_theorem :
    (∀ (c : Constraint) (objs : List Obj) (cs1 cs2 : List Constraint),
      c.targetValue = none →
      solve objs (cs1 ++ c :: cs2) =
        solve objs (cs1 ++ ({ c with targetValue := some 0 }) :: cs2)) ∧
    (∀ (c : Constraint) (objs : List Obj) (q1 q2 : Obj) (v1 v2 : Point3),
      c.type = ConstraintType.DISTANCE → c.targetValue = none →
      findObj objs (c.objectIds.get? 0) = some q1 →
      findObj objs (c.objectIds.get? 1) = some q2 →
      posOf q1 = some v1 → posOf q2 = some v2 →
      applyConstraint objs c = .ok (applyDistance objs c) ∧
        (applyDistance objs c).2 = dist v1 v2) ∧
    (∀ (ty : ObjectType) (a b : ℝ), 0.0001 < b - a →
      applyDistance (mk2 ty a b) (dc none) =
        (mk2 ty (a + (b - a)/4) (b - (b - a)/4), b - a) ∧
      dist (p3 (a + (b - a)/4) 0 0) (p3 (b - (b - a)/4) 0 0) = (b - a)/2) :=
  ⟨fun c objs cs1 cs2 htv => solve_congr_target c htv objs cs1 cs2,
   fun c objs q1 q2 v1 v2 hty htv hf1 hf2 hp1 hp2 =>
     applyDistance_err_spec c objs q1 q2 v1 v2 hty htv hf1 hf2 hp1 hp2,
   fun ty a b h => fam_step_none ty a b h⟩

/-- Witness for C10_theorem on a concrete two-point scene. -/
theorem C10_witness :
    ((dc none).targetValue = none ∧
      solve [] ([] ++ dc none :: []) =
        solve [] ([] ++ ({ dc none with targetValue := some 0 }) :: [])) ∧
    ((dc none).type = ConstraintType.DISTANCE ∧
      findObj (mk2 .POINT 0 1) ((dc none).objectIds.get? 0) = some (mkPt .POINT ("A") 0) ∧
      findObj (mk2 .POINT 0 1) ((dc none).objectIds.get? 1) = some (mkPt .POINT ("B") 1) ∧
      applyConstraint (mk2 .POINT 0 1) (dc none) =
        .ok (applyDistance (mk2 .POINT 0 1) (dc none)) ∧
      (applyDistance (mk2 .POINT 0 1) (dc none)).2 = dist (p3 0 0 0) (p3 1 0 0)) ∧
    ((0.0001 : ℝ) < 1 - 0 ∧
      applyDistance (mk2 .POINT 0 1) (dc none) =
        (mk2 .POINT (0 + (1 - 0)/4) (1 - (1 - 0)/4), 1 - 0) ∧
      dist (p3 (0 + (1 - 0)/4) 0 0) (p3 (1 - (1 - 0)/4) 0 0) = (1 - 0)/2) := by
  have hf1 : findObj (mk2 .POINT 0 1) ((dc none).objectIds.get? 0) =
      some (mkPt .POINT ("A") 0) := rfl
  have hf2 : findObj (mk2 .POINT 0 1) ((dc none).objectIds.get? 1) =
      some (mkPt .POINT ("B") 1) := rfl
  refine ⟨⟨rfl, C10_theorem.1 (dc none) [] [] [] rfl⟩, ⟨rfl, hf1, hf2, ?_, ?_⟩, ?_, ?_, ?_⟩
  · exact (C10_theorem.2.1 (dc none) (mk2 .POINT 0 1) _ _ (p3 0 0 0) (p3 1 0 0)
      rfl rfl hf1 hf2 rfl rfl).1
  · exact (C10_theorem.2.1 (dc none) (mk2 .POINT 0 1) _ _ (p3 0 0 0) (p3 1 0 0)
      rfl rfl hf1 hf2 rfl rfl).2
  · norm_num
  · exact (C10_theorem.2.2 .POINT 0 1 (by norm_num)).1
  · exact (C10_theorem.2.2 .POINT 0 1 (by norm_num)).2

/-- Claim C8: `computeOptimalView` returns the default pose (5,5,5)/(0,0,0)
whenever no visible object carries a position; otherwise the look-at target is
the bounding-box center and the camera position is
center + (maxDim·4 + 5) · unit(1, 0.8, 1); for a single positioned point the
camera distance is exactly 5.  The embedding is a pure function of the object
list, so the call mutates no scene state by construction. -/
theorem C8_theorem :
    (∀ (objs : List Obj), framedPositions objs = [] →
      computeOptimalView objs = ⟨INITIAL_CAMERA_POS, INITIAL_CAMERA_TARGET⟩ ∧
      INITIAL_CAMERA_POS = p3 5 5 5 ∧ INITIAL_CAMERA_TARGET = p3 0 0 0) ∧
    (∀ (objs : List Obj) (mn mx : Point3),
      boxFold (framedPositions objs) = some (mn, mx) →
      computeOptimalView objs =
        ⟨(0.5 : ℝ) • (mn + mx) +
          (max ((mx - mn) 0) (max ((mx - mn) 1) ((mx - mn) 2)) * 4.0 + 5) •
            normalize3 (p3 1 0.8 1),
         (0.5 : ℝ) • (mn + mx)⟩ ∧
      ∀ q ∈ framedPositions objs, ∀ i, mn i ≤ q i ∧ q i ≤ mx i) ∧
    (∀ (o : Obj) (pos : Point3), o.visible = some true → posOf o = some pos →
      computeOptimalView [o] = ⟨pos + (5:ℝ) • normalize3 (p3 1 0.8 1), pos⟩ ∧
      dist (computeOptimalView [o]).position (computeOptimalView [o]).target = 5) := by
  refine ⟨?_, ?_, ?_⟩
  · intro objs h
    exact ⟨cov_default objs h, rfl, rfl⟩
  · intro objs mn mx h
    exact ⟨cov_formula objs mn mx h, boxFold_bounds (framedPositions objs) mn mx h⟩
  · intro o pos hv hp
    obtain ⟨h1, h2⟩ := cov_single o pos hv hp
    refine ⟨h1, ?_⟩
    rw [h1]
    exact h2

/-- Witness for C8_theorem at the empty scene and at a single visible point. -/
theorem C8_witness :
    (framedPositions [] = [] ∧ computeOptimalView [] = ⟨INITIAL_CAMERA_POS, INITIAL_CAMERA_TARGET⟩) ∧
    (o8.visible = some true ∧ posOf o8 = some (p3 1 2 3) ∧
      computeOptimalView [o8] = ⟨p3 1 2 3 + (5:ℝ) • normalize3 (p3 1 0.8 1), p3 1 2 3⟩ ∧
      dist (computeOptimalView [o8]).position (computeOptimalView [o8]).target = 5) :=
  ⟨⟨rfl, (C8_theorem.1 [] rfl).1⟩,
   ⟨rfl, rfl, (C8_theorem.2.2 o8 (p3 1 2 3) rfl rfl).1, (C8_theorem.2.2 o8 (p3 1 2 3) rfl rfl).2⟩⟩

theorem c7w_iter : solveIter (mk2 .POINT 0 1) (activeOf [dc (some 1.0005)]) =
    .ok (mk2 .POINT (-0.000125) 1.000125, 0.0005) := by
  rw [dc_active]
  rw [fam_iter .POINT 0 1 1.0005 (by norm_num)]
  simp only [Except.ok.injEq, Prod.mk.injEq]
  exact ⟨mk2_congr _ (by norm_num) (by norm_num), by norm_num⟩

/-- Counterexample to claim C2 as stated: an enabled Distance constraint between
two non-fixed PLANE objects moves both of them, so position rewrites are not
limited to non-fixed Point-type objects. -/
theorem C2_counterexample :
    solve (mk2 .PLANE 0 1) [dc (some 1.0005)] =
      .ok (mk2 .PLANE (-0.000125) 1.000125, ⟨50, 0, 1, 1⟩) ∧
    mk2 .PLANE 0 1 = [mkPt .PLANE ("A") 0, mkPt .PLANE ("B") 1] ∧
    (mkPt .PLANE ("A") 0).type ≠ ObjectType.POINT ∧
    (mkPt .PLANE ("A") 0).fixed ≠ some true ∧
    posOf (mkPt .PLANE ("A") (-0.000125)) ≠ posOf (mkPt .PLANE ("A") 0) := by
  refine ⟨cex_solve _, rfl, by decide, by decide, ?_⟩
  intro hc
  simp only [posOf, mkPt, Option.some_bind, Option.some.injEq] at hc
  exact p3_ne_of_x (show (-0.000125 : ℝ) ≠ 0 by norm_num) hc

/-- Counterexample to claim C4 as stated: on the empty scene the loop converges
during its first iteration (error 0 < 0.001), so one iteration actually ran,
yet the reported iteration count is 50, not 1. -/
theorem C4_counterexample :
    solve [] [] = .ok ([], ⟨50, 0, 0, 0⟩) ∧
    runIters (activeOf []) 1 ([], 0) = .ok ([], 0) ∧ ((0:ℝ) < 0.001) ∧ (50 ≠ 1) := by
  refine ⟨solve_nil, ?_, by norm_num, by norm_num⟩
  simp [runIters, solveIter, activeOf, exc_ok_bind]

/-- Counterexample to claim C3 as stated: a scene whose first (and only)
iteration accumulates error 0.0005 < 0.001 stops early, but the reported
totalError is 0, not that final iteration's 0.0005. -/
theorem C3_counterexample :
    solve (mk2 .POINT 0 1) [dc (some 1.0005)] =
      .ok (mk2 .POINT (-0.000125) 1.000125, ⟨50, 0, 1, 1⟩) ∧
    runIters (activeOf [dc (some 1.0005)]) 1 (mk2 .POINT 0 1, 0) =
      .ok (mk2 .POINT (-0.000125) 1.000125, 0.0005) ∧
    ((0.0005 : ℝ) ≠ 0) :=
  ⟨cex_solve _, cex_iter_err _, by norm_num⟩

/-- Witness for C3_theorem: a scene converging at the first iteration. -/
theorem C3_witness :
    (runIters (activeOf [dc (some 1.0005)]) 0 (mk2 .POINT 0 1, 0) =
      .ok (mk2 .POINT 0 1, 0)) ∧
    (runIters (activeOf [dc (some 1.0005)]) 1 (mk2 .POINT 0 1, 0) =
      .ok (mk2 .POINT (-0.000125) 1.000125, 0.0005)) ∧ ((0.0005 : ℝ) < 0.001) ∧
    solve (mk2 .POINT 0 1) [dc (some 1.0005)] =
      .ok (mk2 .POINT (-0.000125) 1.000125,
        ⟨MAX_ITER, 0, (activeOf [dc (some 1.0005)]).length,
          (activeOf [dc (some 1.0005)]).length⟩) :=
  ⟨rfl, cex_iter_err _, by norm_num,
   (C3_theorem (mk2 .POINT 0 1) [dc (some 1.0005)]).1 0 _ _ _ _
     (by norm_num [MAX_ITER]) rfl (cex_iter_err _) (by norm_num)
     (fun j sj ej hj _ => absurd hj (by omega))⟩

/-- Witness for C4_theorem at the empty scene. -/
theorem C4_witness :
    (solve [] [] = .ok ([], ⟨50, 0, 0, 0⟩)) ∧
    ((⟨50, 0, 0, 0⟩ : SolverStats).iterations = MAX_ITER ∧
      (⟨50, 0, 0, 0⟩ : SolverStats).verified = (activeOf []).length ∧
      (⟨50, 0, 0, 0⟩ : SolverStats).total = (activeOf []).length) :=
  ⟨solve_nil, C4_theorem [] [] [] ⟨50, 0, 0, 0⟩ solve_nil⟩

/-- Witness for C5_theorem at a concrete constraint with `enabled` unset. -/
theorem C5_witness :
    c5c.enabled = none ∧ (addConstraint c5c [] = [c5c] ∧
      activeOf (addConstraint c5c []) = activeOf []) :=
  ⟨rfl, C5_theorem c5c [] rfl⟩

/-- Witness for C7_theorem at a concrete converged two-point scene. -/
theorem C7_witness :
    (solveIter (mk2 .POINT 0 1) (activeOf [dc (some 1.0005)]) =
      .ok (mk2 .POINT (-0.000125) 1.000125, 0.0005)) ∧ ((0.0005 : ℝ) < 0.001) ∧
    (solve (mk2 .POINT 0 1) [dc (some 1.0005)] =
      .ok (mk2 .POINT (-0.000125) 1.000125,
        ⟨MAX_ITER, 0, (activeOf [dc (some 1.0005)]).length,
          (activeOf [dc (some 1.0005)]).length⟩) ∧
      ∀ (j : Nat) (h1 : j < (mk2 .POINT 0 1).length)
        (h2 : j < (mk2 .POINT (-0.000125) 1.000125).length) (p q : Point3),
        posOf ((mk2 .POINT 0 1).get ⟨j, h1⟩) = some p →
        posOf ((mk2 .POINT (-0.000125) 1.000125).get ⟨j, h2⟩) = some q →
        dist p q ≤ 0.001) :=
  ⟨c7w_iter, by norm_num,
   C7_theorem (mk2 .POINT 0 1) [dc (some 1.0005)] _ _ c7w_iter (by norm_num)⟩

/-- Witness for C2_theorem at a concrete two-segment scene. -/
theorem C2_witness :
    (solve (mk2 .SEGMENT 0 1) [dc (some 1.0005)] =
      .ok (mk2 .SEGMENT (-0.000125) 1.000125, ⟨50, 0, 1, 1⟩)) ∧
    ((mk2 .SEGMENT (-0.000125) 1.000125).map erasePos = (mk2 .SEGMENT 0 1).map erasePos ∧
     ∀ (j : Nat) (h1 : j < (mk2 .SEGMENT 0 1).length)
       (h2 : j < (mk2 .SEGMENT (-0.000125) 1.000125).length),
       ((mk2 .SEGMENT 0 1).get ⟨j, h1⟩).fixed = some true →
       posOf ((mk2 .SEGMENT (-0.000125) 1.000125).get ⟨j, h2⟩) =
         posOf ((mk2 .SEGMENT 0 1).get ⟨j, h1⟩)) :=
  ⟨cex_solve _, C2_theorem _ _ _ _ (cex_solve _)⟩
